import Mathlib

/-!
Verification development for the wikipedia-pro proxy server (src/server/app.py).

The Python source is shallowly embedded: pure helper functions become Lean
functions over `String`/`Int`/`List`, the Flask endpoint `mobile` becomes a
pure function from an explicit request/cache/fetch environment to the
produced response, upsert row and outbound request trace.  External
collaborators that the specification declares out of scope (the HTML
parser/serializer, the HTTP client, the key-value store) are passed in as
explicit parameters.
-/

set_option maxRecDepth 200000

namespace WikiPro

/-! ## Python string primitives (ASCII model)

Python `str.lower`, `str.strip`, `str.split`, `str.startswith`,
`str.endswith` modelled over Lean strings.  `lower`/`strip` are modelled on
the ASCII subset (the only characters the program's fixed string constants
and the claims' inputs use).
-/

/-- ASCII lower-casing of a single character (model of Python `str.lower`
applied character-wise). -/
def asciiLowerChar (c : Char) : Char :=
  if 'A' ≤ c ∧ c ≤ 'Z' then Char.ofNat (c.toNat + 32) else c

/-- Model of Python `str.lower` (ASCII). -/
def pyLower (s : String) : String :=
  ⟨s.data.map asciiLowerChar⟩

/-- Python whitespace characters stripped by `str.strip()` (ASCII subset). -/
def isPyWs (c : Char) : Bool :=
  c = ' ' ∨ c = '\t' ∨ c = '\n' ∨ c = '\r' ∨ c = '\x0b' ∨ c = '\x0c'

/-- Model of Python `str.strip()` on lists of characters. -/
def stripList (l : List Char) : List Char :=
  ((l.dropWhile isPyWs).reverse.dropWhile isPyWs).reverse

/-- Model of Python `str.strip()`. -/
def pyStrip (s : String) : String :=
  ⟨stripList s.data⟩

/-- The characters of `s` before the first occurrence of `c`
(`s.split(c, 1)[0]`). -/
def takeUntilChar (s : String) (c : Char) : String :=
  ⟨s.data.takeWhile (· ≠ c)⟩

/-- Boolean string containment test (Python `needle in hay`). -/
def strContains (hay needle : String) : Bool :=
  (List.range (hay.data.length + 1)).any
    (fun i => needle.data.isPrefixOf (hay.data.drop i))

/-- Model of Python `str.endswith` (list-based). -/
def pyEndsWith (s suf : String) : Bool :=
  suf.data.isSuffixOf s.data

/-- Model of Python `str.startswith` (list-based). -/
def pyStartsWith (s pre : String) : Bool :=
  pre.data.isPrefixOf s.data

/-- Python truthiness of an optional string (`None` and `""` are falsy). -/
def truthy : Option String → Bool
  | none => false
  | some s => s ≠ ""

/-- Python `a or b` on optional strings: keep `a` when truthy, else `b`. -/
def pyOrStr (a b : Option String) : Option String :=
  if truthy a then a else b

/-! ## Configuration constants (module-level constants of app.py with their
default environment values) -/

/-- `WIKI_BASE` default. -/
def WIKI_BASE : String := "https://en.m.wikipedia.org"

/-- `CACHE_REWRITE_VERSION` default. -/
def CACHE_REWRITE_VERSION : Int := 1

/-- `CACHE_TTL_MIN_SECONDS` default (600 = 10 minutes). -/
def CACHE_TTL_MIN_SECONDS : Int := 600

/-- `CACHE_TTL_MAX_SECONDS` default (86400 = 24 hours). -/
def CACHE_TTL_MAX_SECONDS : Int := 86400

/-- `CACHE_TTL_GROWTH_FACTOR` default (the float 2.0).  The float 2.0
represents the integer 2 exactly, and multiplying by 2.0 is exact in IEEE
arithmetic, so `int(cur * 2.0)` agrees with integer doubling for every
TTL the clamped policy can observe; the factor is therefore modelled as
the integer 2. -/
def CACHE_TTL_GROWTH_FACTOR : Int := 2

/-- `_WIKIMEDIA_APEX` tuple from app.py. -/
def WIKIMEDIA_APEX : List String :=
  [ "wikipedia.org", "wiktionary.org", "wikidata.org", "wikimedia.org"
  , "wikibooks.org", "wikiquote.org", "wikiversity.org", "wikivoyage.org"
  , "wikisource.org", "wikinews.org", "mediawiki.org" ]

/-! ## Host allowlist (`is_allowed_wikimedia_host`, app.py lines 58-70) -/

/-- Embedding of `is_allowed_wikimedia_host`.  Mirrors the source: empty
host is rejected; the host is lower-cased, whitespace-stripped, an optional
`:port` suffix is removed; then it must equal one of the two upload/commons
hosts, or equal or be a dot-suffix of one of the eleven apex domains. -/
def is_allowed_wikimedia_host (host : String) : Bool :=
  if host = "" then false
  else
    let h := pyStrip (pyLower host)
    let h := if strContains h ":" then takeUntilChar h ':' else h
    if h = "commons.wikimedia.org" ∨ h = "upload.wikimedia.org" then true
    else WIKIMEDIA_APEX.any (fun apex => h = apex ∨ pyEndsWith h ("." ++ apex))

/-- The allowlist predicate exactly as the claim words it: strip a port
suffix and lower-case, then compare (no whitespace stripping). -/
def allowedHostClaimSpec (host : String) : Bool :=
  if host = "" then false
  else
    let h0 := if strContains host ":" then takeUntilChar host ':' else host
    let h := pyLower h0
    if h = "commons.wikimedia.org" ∨ h = "upload.wikimedia.org" then true
    else WIKIMEDIA_APEX.any (fun apex => h = apex ∨ pyEndsWith h ("." ++ apex))

/-- The allowlist predicate as amended: additionally strip leading/trailing
whitespace (in the source, `host.lower().strip()` runs before the port
split). -/
def allowedHostAmendedSpec (host : String) : Bool :=
  if host = "" then false
  else
    let h0 := pyStrip (pyLower host)
    let h := if strContains h0 ":" then takeUntilChar h0 ':' else h0
    if h = "commons.wikimedia.org" ∨ h = "upload.wikimedia.org" then true
    else WIKIMEDIA_APEX.any (fun apex => h = apex ∨ pyEndsWith h ("." ++ apex))

/-! ## Adaptive TTL (`next_ttl_seconds`, app.py lines 136-149) -/

/-- Lines 139-141 of app.py: `cur = current_ttl_seconds or 0` (Python `or`
maps `None` to `0` and keeps any nonzero value) followed by
`if cur <= 0: cur = CACHE_TTL_MIN_SECONDS`. -/
def ttlCur (current : Option Int) : Int :=
  let cur0 : Int := current.getD 0
  if cur0 ≤ 0 then CACHE_TTL_MIN_SECONDS else cur0

/-- Lines 142-144 of app.py: `grown = int(cur * CACHE_TTL_GROWTH_FACTOR)`
(exact for the default factor 2.0) then `if grown <= cur: grown = cur +
CACHE_TTL_MIN_SECONDS`. -/
def ttlGrown (cur : Int) : Int :=
  let grown : Int := cur * CACHE_TTL_GROWTH_FACTOR
  if grown ≤ cur then cur + CACHE_TTL_MIN_SECONDS else grown

/-- Lines 145-149 of app.py: clamp into `[TTL_MIN, TTL_MAX]`. -/
def ttlClamp (grown : Int) : Int :=
  let g := if grown < CACHE_TTL_MIN_SECONDS then CACHE_TTL_MIN_SECONDS else grown
  if g > CACHE_TTL_MAX_SECONDS then CACHE_TTL_MAX_SECONDS else g

/-- Embedding of `next_ttl_seconds` (app.py lines 136-149). -/
def next_ttl_seconds (current : Option Int) (can_grow : Bool) : Int :=
  if ¬ can_grow then CACHE_TTL_MIN_SECONDS
  else ttlClamp (ttlGrown (ttlCur current))

/-- The TTL step exactly as the claim words it: `cur = max(current, TTL_MIN)`
(absent treated as TTL_MIN), `grown = floor(cur * GROWTH_FACTOR)`, bump to
`cur + TTL_MIN` when not strictly grown, clamp to `[TTL_MIN, TTL_MAX]`. -/
def nextTtlClaimSpec (current : Option Int) (can_grow : Bool) : Int :=
  if ¬ can_grow then CACHE_TTL_MIN_SECONDS
  else
    let cur : Int := match current with
      | none => CACHE_TTL_MIN_SECONDS
      | some n => max n CACHE_TTL_MIN_SECONDS
    ttlClamp (ttlGrown cur)

/-- The TTL step as amended: `cur` is `current` when present and positive,
otherwise TTL_MIN (the source replaces only absent or nonpositive values by
the minimum; a positive value below TTL_MIN is kept as the growth base). -/
def nextTtlAmendedSpec (current : Option Int) (can_grow : Bool) : Int :=
  if ¬ can_grow then CACHE_TTL_MIN_SECONDS
  else
    let cur : Int := match current with
      | none => CACHE_TTL_MIN_SECONDS
      | some n => if 0 < n then n else CACHE_TTL_MIN_SECONDS
    ttlClamp (ttlGrown cur)

/-- The sequence of TTL values produced by repeatedly revalidating with
`can_grow = true`, starting from a stored value `start`:
`ttlSeq start 0` is the first produced TTL. -/
def ttlSeq (start : Option Int) : Nat → Int
  | 0 => next_ttl_seconds start true
  | n + 1 => next_ttl_seconds (some (ttlSeq start n)) true

/-! ## Percent-encoding (urllib.parse quote/unquote)

Byte strings are modelled as `List Nat` with entries below 256.  Strings
are converted to and from bytes by UTF-8 (exact for the ASCII inputs the
program's constants use; multi-byte sequences follow the standard UTF-8
coding with U+FFFD replacement on decoding errors, approximating Python's
`errors="replace"`).
-/

/-- UTF-8 encoding of one character. -/
def utf8EncodeChar (c : Char) : List Nat :=
  let n := c.toNat
  if n < 0x80 then [n]
  else if n < 0x800 then
    [0xC0 ||| (n >>> 6), 0x80 ||| (n &&& 0x3F)]
  else if n < 0x10000 then
    [0xE0 ||| (n >>> 12), 0x80 ||| ((n >>> 6) &&& 0x3F), 0x80 ||| (n &&& 0x3F)]
  else
    [0xF0 ||| (n >>> 18), 0x80 ||| ((n >>> 12) &&& 0x3F),
     0x80 ||| ((n >>> 6) &&& 0x3F), 0x80 ||| (n &&& 0x3F)]

/-- UTF-8 encoding of a string as a byte list. -/
def utf8Encode (s : String) : List Nat :=
  (s.data.map utf8EncodeChar).flatten

/-- Check whether a byte is a UTF-8 continuation byte. -/
def isCont (b : Nat) : Bool := 0x80 ≤ b ∧ b ≤ 0xBF

/-- UTF-8 decoding with replacement (fuel-indexed; the fuel is the byte
count, and every step consumes at least one byte). -/
def utf8DecodeFuel : Nat → List Nat → List Char
  | 0, _ => []
  | _ + 1, [] => []
  | f + 1, b :: rest =>
    if b < 0x80 then Char.ofNat b :: utf8DecodeFuel f rest
    else if b ≤ 0xC1 then '�' :: utf8DecodeFuel f rest
    else if b ≤ 0xDF then
      match rest with
      | b2 :: r2 =>
        if isCont b2 then
          Char.ofNat (((b &&& 0x1F) <<< 6) ||| (b2 &&& 0x3F)) :: utf8DecodeFuel f r2
        else '�' :: utf8DecodeFuel f rest
      | [] => ['�']
    else if b ≤ 0xEF then
      match rest with
      | b2 :: b3 :: r3 =>
        if isCont b2 ∧ isCont b3 then
          Char.ofNat
            (((b &&& 0x0F) <<< 12) ||| ((b2 &&& 0x3F) <<< 6) ||| (b3 &&& 0x3F))
            :: utf8DecodeFuel f r3
        else '�' :: utf8DecodeFuel f rest
      | _ => ['�']
    else if b ≤ 0xF4 then
      match rest with
      | b2 :: b3 :: b4 :: r4 =>
        if isCont b2 ∧ isCont b3 ∧ isCont b4 then
          Char.ofNat
            (((b &&& 0x07) <<< 18) ||| ((b2 &&& 0x3F) <<< 12)
              ||| ((b3 &&& 0x3F) <<< 6) ||| (b4 &&& 0x3F))
            :: utf8DecodeFuel f r4
        else '�' :: utf8DecodeFuel f rest
      | _ => ['�']
    else '�' :: utf8DecodeFuel f rest

/-- UTF-8 decoding of a byte list. -/
def utf8Decode (bs : List Nat) : List Char :=
  utf8DecodeFuel bs.length bs

/-- Upper-case hex digit of a value below 16 (Python `quote` emits upper
case). -/
def hexUpper (n : Nat) : Char :=
  if n < 10 then Char.ofNat ('0'.toNat + n) else Char.ofNat ('A'.toNat + n - 10)

/-- Hex digit value of a character, if it is one (both cases). -/
def hexVal (c : Char) : Option Nat :=
  if '0' ≤ c ∧ c ≤ '9' then some (c.toNat - '0'.toNat)
  else if 'a' ≤ c ∧ c ≤ 'f' then some (c.toNat - 'a'.toNat + 10)
  else if 'A' ≤ c ∧ c ≤ 'F' then some (c.toNat - 'A'.toNat + 10)
  else none

/-- Characters `urllib.parse.quote` never encodes (its `_ALWAYS_SAFE` set);
with `safe=""` nothing else is kept. -/
def isQuoteSafe (c : Char) : Bool :=
  ('A' ≤ c ∧ c ≤ 'Z') ∨ ('a' ≤ c ∧ c ≤ 'z') ∨ ('0' ≤ c ∧ c ≤ '9')
    ∨ c = '_' ∨ c = '.' ∨ c = '-' ∨ c = '~'

/-- Percent-escape of one byte. -/
def quoteByte (b : Nat) : List Char :=
  ['%', hexUpper (b / 16), hexUpper (b % 16)]

/-- Model of `urllib.parse.quote(s, safe="")`: every character outside the
always-safe set is UTF-8 encoded and percent-escaped. -/
def quote (s : String) : String :=
  ⟨(s.data.map fun c =>
      if isQuoteSafe c then [c] else ((utf8EncodeChar c).map quoteByte).flatten).flatten⟩

/-- Model of `urllib.parse.unquote`: maximal runs of valid `%XX` escapes
are decoded as UTF-8 byte sequences; invalid escapes stay literal.
Fuel-indexed on the character count (each step consumes at least one
character).  `acc` holds the pending decoded bytes of the current run. -/
def unquoteFuel : Nat → List Char → List Nat → List Char
  | 0, _, acc => utf8Decode acc.reverse
  | _ + 1, [], acc => utf8Decode acc.reverse
  | f + 1, '%' :: c1 :: c2 :: rest, acc =>
    match hexVal c1, hexVal c2 with
    | some h, some l => unquoteFuel f rest ((h * 16 + l) :: acc)
    | _, _ => utf8Decode acc.reverse ++ '%' :: unquoteFuel f (c1 :: c2 :: rest) []
  | f + 1, c :: rest, acc =>
    utf8Decode acc.reverse ++ c :: unquoteFuel f rest []

/-- Model of `urllib.parse.unquote` on strings. -/
def unquote (s : String) : String :=
  ⟨unquoteFuel s.data.length s.data []⟩

/-! ## URL parsing (urllib.parse urlparse/urlunparse/parse_qs/urljoin) -/

/-- Result of `urlparse`: the six components of a URL. -/
structure UrlSplit where
  scheme : String
  netloc : String
  path : String
  params : String
  query : String
  fragment : String
  deriving DecidableEq, Repr

/-- Characters allowed inside a URL scheme. -/
def schemeChars (c : Char) : Bool :=
  c.isAlpha ∨ c.isDigit ∨ c = '+' ∨ c = '-' ∨ c = '.'

/-- Index of the first element satisfying a predicate. -/
def findIdxAux (p : Char → Bool) : List Char → Option Nat
  | [] => none
  | c :: l => if p c then some 0 else (findIdxAux p l).map (· + 1)

/-- Index of the first occurrence of a character. -/
def strFindChar (s : String) (c : Char) : Option Nat :=
  findIdxAux (· = c) s.data

/-- Split at the first occurrence of a character: `(before, some after)`
when found, `(s, none)` otherwise (Python `s.split(c, 1)`). -/
def splitFirst (s : String) (c : Char) : String × Option String :=
  match strFindChar s c with
  | some i => (⟨s.data.take i⟩, some ⟨s.data.drop (i + 1)⟩)
  | none => (s, none)

/-- Scheme extraction of `urlsplit`: a leading `name:` with an ASCII
letter first and only scheme characters is split off and lower-cased;
otherwise the caller's default scheme is used. -/
def splitScheme (url : String) (default : String) : String × String :=
  match strFindChar url ':' with
  | some i =>
    let ok : Bool := decide (0 < i)
      && (match url.data.head? with | some c => c.isAlpha | none => false)
      && (url.data.take i).all schemeChars
    if ok then (pyLower ⟨url.data.take i⟩, ⟨url.data.drop (i + 1)⟩)
    else (default, url)
  | none => (default, url)

/-- Netloc extraction of `urlsplit` (`_splitnetloc`): after a leading
`//`, the netloc runs to the first `/`, `?` or `#`. -/
def splitNetloc (rest : String) : String × String :=
  let body := rest.data.drop 2
  let netloc := body.takeWhile (fun c => ¬ (c = '/' ∨ c = '?' ∨ c = '#'))
  (⟨netloc⟩, ⟨body.drop netloc.length⟩)

/-- Index of the last occurrence of a character. -/
def rfindIdx (l : List Char) (c : Char) : Option Nat :=
  match findIdxAux (· = c) l.reverse with
  | some i => some (l.length - 1 - i)
  | none => none

/-- Params extraction of `urlparse` (`_splitparams`): split at the first
`;` occurring after the last `/` (or anywhere when there is no slash). -/
def splitparams (path : String) : String × String :=
  if strContains path "/" then
    let start := (rfindIdx path.data '/').getD 0
    match findIdxAux (· = ';') (path.data.drop start) with
    | some j =>
      let i := start + j
      (⟨path.data.take i⟩, ⟨path.data.drop (i + 1)⟩)
    | none => (path, "")
  else
    match splitFirst path ';' with
    | (a, some b) => (a, b)
    | (a, none) => (a, "")

/-- Model of `urllib.parse.urlparse` (with a default scheme, as `urljoin`
uses it).  Bracketed-netloc validation errors are not modelled. -/
def urlparseDef (url : String) (default : String) : UrlSplit :=
  let (scheme, rest) := splitScheme url default
  let (netloc, rest) :=
    if pyStartsWith rest "//" then splitNetloc rest else ("", rest)
  let (rest, fragment) :=
    match splitFirst rest '#' with
    | (a, some b) => (a, b)
    | (a, none) => (a, "")
  let (path, query) :=
    match splitFirst rest '?' with
    | (a, some b) => (a, b)
    | (a, none) => (a, "")
  let (path, params) :=
    if strContains path ";" then splitparams path else (path, "")
  ⟨scheme, netloc, path, params, query, fragment⟩

/-- Model of `urllib.parse.urlparse` with the usual empty default scheme. -/
def urlparse (url : String) : UrlSplit := urlparseDef url ""

/-- Model of `urllib.parse.urlunparse`/`geturl`: reassemble components. -/
def urlunparse (p : UrlSplit) : String :=
  let url := if p.params ≠ "" then p.path ++ ";" ++ p.params else p.path
  let url :=
    if p.netloc ≠ "" ∨ pyStartsWith url "//" then
      "//" ++ p.netloc ++ (if url ≠ "" ∧ ¬ pyStartsWith url "/" then "/" ++ url else url)
    else url
  let url := if p.scheme ≠ "" then p.scheme ++ ":" ++ url else url
  let url := if p.query ≠ "" then url ++ "?" ++ p.query else url
  if p.fragment ≠ "" then url ++ "#" ++ p.fragment else url

/-- Replace every occurrence of a character (Python `str.replace` with
single-character arguments). -/
def replaceChar (s : String) (a b : Char) : String :=
  ⟨s.data.map (fun c => if c = a then b else c)⟩

/-- Split a string on every occurrence of a character (Python
`s.split(c)`). -/
def splitAllOn (s : String) (c : Char) : List String :=
  let groups := s.data.foldr
    (fun ch acc =>
      match acc with
      | g :: gs => if ch = c then [] :: g :: gs else (ch :: g) :: gs
      | [] => [[ch]])
    [[]]
  groups.map (fun g => ⟨g⟩)

/-- Insert one key/value pair into an ordered multi-dict (the grouping
`parse_qs` performs over `parse_qsl`). -/
def qsInsert (d : List (String × List String)) (k v : String) :
    List (String × List String) :=
  match d with
  | [] => [(k, [v])]
  | (k0, vs) :: rest =>
    if k0 = k then (k0, vs ++ [v]) :: rest else (k0, vs) :: qsInsert rest k v

/-- Model of `urllib.parse.parse_qs` with default arguments: split the
query on `&`, drop empty chunks, drop chunks without `=` and chunks with
an empty value, plus-decode and percent-decode names and values, group
values by key in insertion order. -/
def parse_qs (qs : String) : List (String × List String) :=
  (splitAllOn qs '&').foldl
    (fun d chunk =>
      if chunk = "" then d
      else
        match splitFirst chunk '=' with
        | (_, none) => d
        | (name, some value) =>
          if value = "" then d
          else
            qsInsert d (unquote (replaceChar name '+' ' '))
              (unquote (replaceChar value '+' ' ')))
    []

/-- Key membership in a parsed query dict. -/
def qsHas (d : List (String × List String)) (k : String) : Bool :=
  d.any (fun kv => kv.1 = k)

/-- First value of a key (`qs.get(k, [None])[0]`, which is `None` exactly
when the key is absent, since grouped value lists are never empty). -/
def qsFirst (d : List (String × List String)) (k : String) : Option String :=
  match d.find? (fun kv => kv.1 = k) with
  | some (_, v :: _) => some v
  | _ => none

/-- Schemes that `urljoin` treats as using relative URLs
(`urllib.parse.uses_relative`). -/
def uses_relative : List String :=
  [ "", "ftp", "http", "gopher", "nntp", "imap", "wais", "file", "https"
  , "shttp", "mms", "prospero", "rtsp", "rtspu", "sftp", "svn", "svn+ssh"
  , "ws", "wss" ]

/-- Schemes that carry a netloc (`urllib.parse.uses_netloc`). -/
def uses_netloc : List String :=
  [ "", "ftp", "http", "gopher", "nntp", "telnet", "imap", "wais", "file"
  , "mms", "https", "shttp", "snews", "prospero", "rtsp", "rtspu", "rsync"
  , "svn", "svn+ssh", "sftp", "nfs", "git", "git+ssh", "ws", "wss" ]

/-- Dot-segment resolution loop of `urljoin`: `..` pops (ignoring
underflow), `.` is skipped, everything else is appended. -/
def resolveSegs (segs : List String) : List String :=
  segs.foldl
    (fun acc seg =>
      if seg = ".." then acc.dropLast
      else if seg = "." then acc
      else acc ++ [seg])
    []

/-- Model of `urllib.parse.urljoin` (CPython 3 algorithm). -/
def urljoin (base url : String) : String :=
  if base = "" then url
  else if url = "" then base
  else
    let b := urlparseDef base ""
    let r := urlparseDef url b.scheme
    if r.scheme ≠ b.scheme ∨ ¬ uses_relative.contains r.scheme then url
    else
      let (netloc, stop) :=
        if uses_netloc.contains r.scheme then
          if r.netloc ≠ "" then (r.netloc, true) else (b.netloc, false)
        else (r.netloc, false)
      if stop then
        urlunparse ⟨r.scheme, netloc, r.path, r.params, r.query, r.fragment⟩
      else if r.path = "" ∧ r.params = "" then
        let query := if r.query = "" then b.query else r.query
        urlunparse ⟨r.scheme, netloc, b.path, b.params, query, r.fragment⟩
      else
        let baseParts :=
          let bp := splitAllOn b.path '/'
          if bp.getLast? ≠ some "" then bp.dropLast else bp
        let segments :=
          if pyStartsWith r.path "/" then splitAllOn r.path '/'
          else
            let segs := baseParts ++ splitAllOn r.path '/'
            match segs with
            | [] => []
            | [s] => [s]
            | s :: more =>
              s :: (more.dropLast.filter (fun x => x ≠ "")) ++ [(more.getLast?).getD ""]
        let resolved :=
          let rp := resolveSegs segments
          if segments.getLast? = some "." ∨ segments.getLast? = some ".." then
            rp ++ [""]
          else rp
        let joined := String.intercalate "/" resolved
        let path := if joined = "" then "/" else joined
        urlunparse ⟨r.scheme, netloc, path, r.params, r.query, r.fragment⟩

/-! ## Proxy URL construction and unwrapping (app.py lines 181-196, 488-577) -/

/-- Embedding of `absolutize`: empty input falls back to `WIKI_BASE`,
otherwise resolve against `WIKI_BASE`. -/
def absolutize (url_or_path : String) : String :=
  if url_or_path = "" then WIKI_BASE else urljoin WIKI_BASE url_or_path

/-- Embedding of `make_proxy_url`. -/
def make_proxy_url (target : String) : String :=
  "/m?url=" ++ quote target

/-- Embedding of `make_image_proxy_url`. -/
def make_image_proxy_url (target : String) : String :=
  "/i?url=" ++ quote target

/-- Loopback host aliases accepted by the unwrap netloc comparison. -/
def loopbacks : List String :=
  ["localhost", "127.0.0.1", "0.0.0.0", "::1"]

/-- Embedding of the inner `_split_netloc` helper of `unwrap_proxy_url`:
strip whitespace, handle a bracketed IPv6 host, else split at the last
colon. -/
def split_netloc_hp (netloc : String) : String × Option String :=
  let nl := pyStrip netloc
  if pyStartsWith nl "[" then
    let afterBracket := nl.data.drop 1
    let hostPart := afterBracket.takeWhile (· ≠ ']')
    let rest := afterBracket.drop (hostPart.length + 1)
    let port := if rest.head? = some ':' then some (⟨rest.drop 1⟩ : String) else none
    (⟨hostPart⟩, port)
  else
    match rfindIdx nl.data ':' with
    | some i => (⟨nl.data.take i⟩, some ⟨nl.data.drop (i + 1)⟩)
    | none => (nl, none)

/-- Netloc acceptance test of the unwrap loop: either the URL's netloc
equals the serving host, or both are loopback aliases on the same port. -/
def unwrapHostOk (netloc host : String) : Bool :=
  if netloc = host then true
  else
    let (aHost, aPort) := split_netloc_hp netloc
    let (bHost, bPort) := split_netloc_hp host
    aPort = bPort ∧ loopbacks.contains (pyLower aHost)
      ∧ loopbacks.contains (pyLower bHost)

/-- Query-dict recovery of the unwrap loop (app.py lines 533-558):
`parse_qs`, then a one-shot percent-decode retry when neither `url` nor
`path` was found but the raw query contains `%3D` or `%26`, then the
single-malformed-key fallback. -/
def unwrapQs (query : String) : List (String × List String) :=
  let qs := parse_qs query
  let qs :=
    if ¬ qsHas qs "url" ∧ ¬ qsHas qs "path" ∧ query ≠ ""
        ∧ (strContains query "%3D" ∨ strContains query "%26") then
      let qs2 := parse_qs (unquote query)
      if qsHas qs2 "url" ∨ qsHas qs2 "path" then qs2 else qs
    else qs
  if ¬ qsHas qs "url" ∧ ¬ qsHas qs "path" ∧ qs.length = 1 then
    match qs.head? with
    | some (onlyKey, _) =>
      if strContains onlyKey "url=" ∨ strContains onlyKey "path=" then
        if pyStartsWith onlyKey "url=" then
          [("url", [(splitFirst onlyKey '=').2.getD ""])]
        else if pyStartsWith onlyKey "path=" then
          [("path", [(splitFirst onlyKey '=').2.getD ""])]
        else qs
      else qs
    | none => qs
  else qs

/-- One iteration of the unwrap loop body: `some inner` means the loop
continues with `inner` (a `continue` in the source), `none` means it stops
(`break`, or falling through an empty parameter). -/
def peelStep (host : String) (current : String) : Option String :=
  let p := urlparse current
  if ¬ (p.scheme = "http" ∨ p.scheme = "https") then none
  else if p.netloc ≠ host ∧ ¬ unwrapHostOk p.netloc host then none
  else
    let qs := unwrapQs p.query
    if p.path = "/m" then
      let inner := qsFirst qs "url"
      if truthy inner then some (inner.getD "")
      else
        let innerPath := qsFirst qs "path"
        if truthy innerPath then some (absolutize (innerPath.getD ""))
        else none
    else if p.path = "/i" then
      let inner := qsFirst qs "url"
      if truthy inner then some (inner.getD "") else none
    else none

/-- The unwrap loop with explicit fuel: stop when the step stops, else
continue with the inner URL. -/
def unwrapAux (host : String) : Nat → String → String
  | 0, cur => cur
  | n + 1, cur =>
    match peelStep host cur with
    | none => cur
    | some nxt => unwrapAux host n nxt

/-- Embedding of `unwrap_proxy_url` (app.py lines 488-577): at most
`MAX_HOPS = 8` peeling iterations against the serving `host`
(`request.host`). -/
def unwrap_proxy_url (host : String) (url : String) : String :=
  unwrapAux host 8 url

/-- Nine-fold self-wrapped proxy URL: the target
`https://en.wikipedia.org/wiki/Cat` wrapped nine times in
`http://localhost:5000/m?url=...` (unencoded nesting, which `parse_qs`
still recovers because `split("=", 1)` keeps everything after the first
`=` as the value). -/
def deepWrappedUrl : String :=
  "http://localhost:5000/m?url=http://localhost:5000/m?url=http://localhost:5000/m?url=http://localhost:5000/m?url=http://localhost:5000/m?url=http://localhost:5000/m?url=http://localhost:5000/m?url=http://localhost:5000/m?url=http://localhost:5000/m?url=https://en.wikipedia.org/wiki/Cat"

/-! ## SHA-256 (hashlib.sha256, used by `sha256_hex` and `compute_cache_key`)

A complete executable SHA-256 over byte lists (`Nat` entries below 256),
with 32-bit words as `Nat` reduced modulo `2^32`.
-/

/-- Reduce to a 32-bit word. -/
def w32 (n : Nat) : Nat := n % 4294967296

/-- Right rotation of a 32-bit word. -/
def rotr (n x : Nat) : Nat := w32 ((x >>> n) ||| (x <<< (32 - n)))

/-- SHA-256 big sigma 0. -/
def bSig0 (x : Nat) : Nat := (rotr 2 x) ^^^ (rotr 13 x) ^^^ (rotr 22 x)

/-- SHA-256 big sigma 1. -/
def bSig1 (x : Nat) : Nat := (rotr 6 x) ^^^ (rotr 11 x) ^^^ (rotr 25 x)

/-- SHA-256 small sigma 0. -/
def sSig0 (x : Nat) : Nat := (rotr 7 x) ^^^ (rotr 18 x) ^^^ (x >>> 3)

/-- SHA-256 small sigma 1. -/
def sSig1 (x : Nat) : Nat := (rotr 17 x) ^^^ (rotr 19 x) ^^^ (x >>> 10)

/-- SHA-256 choice function. -/
def shaCh (x y z : Nat) : Nat := (x &&& y) ^^^ ((x ^^^ 0xFFFFFFFF) &&& z)

/-- SHA-256 majority function. -/
def shaMaj (x y z : Nat) : Nat := (x &&& y) ^^^ (x &&& z) ^^^ (y &&& z)

/-- SHA-256 round constants (FIPS 180-4, in decimal). -/
def shaK : List Nat :=
  [ 1116352408, 1899447441, 3049323471, 3921009573
  , 961987163, 1508970993, 2453635748, 2870763221
  , 3624381080, 310598401, 607225278, 1426881987
  , 1925078388, 2162078206, 2614888103, 3248222580
  , 3835390401, 4022224774, 264347078, 604807628
  , 770255983, 1249150122, 1555081692, 1996064986
  , 2554220882, 2821834349, 2952996808, 3210313671
  , 3336571891, 3584528711, 113926993, 338241895
  , 666307205, 773529912, 1294757372, 1396182291
  , 1695183700, 1986661051, 2177026350, 2456956037
  , 2730485921, 2820302411, 3259730800, 3345764771
  , 3516065817, 3600352804, 4094571909, 275423344
  , 430227734, 506948616, 659060556, 883997877
  , 958139571, 1322822218, 1537002063, 1747873779
  , 1955562222, 2024104815, 2227730452, 2361852424
  , 2428436474, 2756734187, 3204031479, 3329325298 ]

/-- SHA-256 initial hash state (FIPS 180-4, in decimal). -/
def shaH0 : List Nat :=
  [ 1779033703, 3144134277, 1013904242, 2773480762
  , 1359893119, 2600822924, 528734635, 1541459225 ]

/-- Merkle-Damgard padding: append `0x80`, zero bytes to 56 mod 64, and
the 64-bit big-endian bit length. -/
def sha256pad (msg : List Nat) : List Nat :=
  let bitlen := msg.length * 8
  let zeros := (120 - (msg.length + 1) % 64) % 64
  msg ++ [0x80] ++ List.replicate zeros 0
    ++ (List.range 8).map (fun i => (bitlen >>> ((7 - i) * 8)) % 256)

/-- Group bytes into big-endian 32-bit words. -/
def bytesToWords : List Nat → List Nat
  | b1 :: b2 :: b3 :: b4 :: rest =>
    ((b1 <<< 24) ||| (b2 <<< 16) ||| (b3 <<< 8) ||| b4) :: bytesToWords rest
  | _ => []

/-- Extend the 16-word block to the 64-word message schedule. -/
def buildW (w16 : List Nat) : List Nat :=
  (List.range 48).foldl
    (fun w _ =>
      let t := w.length
      w ++ [w32 (sSig1 (w.getD (t - 2) 0) + w.getD (t - 7) 0
        + sSig0 (w.getD (t - 15) 0) + w.getD (t - 16) 0)])
    w16

/-- One SHA-256 compression round. -/
def shaRound (st : List Nat) (kw : Nat × Nat) : List Nat :=
  match st with
  | [a, b, c, d, e, f, g, h] =>
    let t1 := w32 (h + bSig1 e + shaCh e f g + kw.1 + kw.2)
    let t2 := w32 (bSig0 a + shaMaj a b c)
    [w32 (t1 + t2), a, b, c, w32 (d + t1), e, f, g]
  | other => other

/-- Compress one 64-byte block into the running state. -/
def sha256Block (h : List Nat) (block : List Nat) : List Nat :=
  let w := buildW (bytesToWords block)
  let fin := (shaK.zip w).foldl shaRound h
  (h.zip fin).map (fun xy => w32 (xy.1 + xy.2))

/-- Split a byte list into 64-byte chunks (fuel-indexed). -/
def chunks64Fuel : Nat → List Nat → List (List Nat)
  | 0, _ => []
  | _ + 1, [] => []
  | f + 1, l => l.take 64 :: chunks64Fuel f (l.drop 64)

/-- SHA-256 digest bytes of a byte list. -/
def sha256Bytes (msg : List Nat) : List Nat :=
  let padded := sha256pad msg
  let hs := (chunks64Fuel padded.length padded).foldl sha256Block shaH0
  (hs.map (fun w => [(w >>> 24) % 256, (w >>> 16) % 256, (w >>> 8) % 256, w % 256])).flatten

/-- Lower-case hex digit. -/
def hexLower (n : Nat) : Char :=
  if n < 10 then Char.ofNat ('0'.toNat + n) else Char.ofNat ('a'.toNat + n - 10)

/-- Lower-case hex string of a byte list (Python `hexdigest()`). -/
def bytesToHex (bs : List Nat) : String :=
  ⟨(bs.map (fun b => [hexLower (b / 16), hexLower (b % 16)])).flatten⟩

/-- Embedding of `sha256_hex` (app.py lines 114-115): UTF-8 encode and
return the lower-case hex SHA-256 digest. -/
def sha256_hex (text : String) : String :=
  bytesToHex (sha256Bytes (utf8Encode text))

/-! ## Datetime (the datetime subset used by app.py)

Python `datetime` values are modelled by calendar fields plus an optional
UTC offset in seconds (`tzinfo`).  `fromisoformat` is modelled on the
strict ISO grammar every supported CPython version accepts (the extended
`YYYY-MM-DD[*HH[:MM[:SS[.fff[fff]]]][+HH:MM[:SS]]]` format, which is also
exactly what `to_iso8601_z` emits); exotic ISO-8601 forms accepted only by
newer CPython (basic format, week dates) are not modelled.
-/

/-- Model of a Python `datetime`: calendar fields plus optional UTC offset
in seconds. -/
structure PyDateTime where
  year : Nat
  month : Nat
  day : Nat
  hour : Nat
  minute : Nat
  second : Nat
  usec : Nat
  tz : Option Int
  deriving DecidableEq, Repr

/-- Gregorian leap-year test. -/
def isLeap (y : Nat) : Bool :=
  y % 4 = 0 ∧ (y % 100 ≠ 0 ∨ y % 400 = 0)

/-- Days in a month. -/
def daysInMonth (y m : Nat) : Nat :=
  if m = 2 then (if isLeap y then 29 else 28)
  else if m = 4 ∨ m = 6 ∨ m = 9 ∨ m = 11 then 30
  else 31

/-- Days since 1970-01-01 of a civil date (Hinnant's algorithm with floor
division). -/
def daysFromCivil (y : Int) (m d : Nat) : Int :=
  let y' := y - (if m ≤ 2 then 1 else 0)
  let era := Int.fdiv y' 400
  let yoe := (y' - era * 400).toNat
  let mp := (m + 9) % 12
  let doy := (153 * mp + 2) / 5 + d - 1
  let doe := yoe * 365 + yoe / 4 - yoe / 100 + doy
  era * 146097 + (doe : Int) - 719468

/-- Civil date of a day number (inverse of `daysFromCivil`). -/
def civilFromDays (z0 : Int) : Int × Nat × Nat :=
  let z := z0 + 719468
  let era := Int.fdiv z 146097
  let doe := (z - era * 146097).toNat
  let yoe := (doe - doe / 1460 + doe / 36524 - doe / 146096) / 365
  let y := (yoe : Int) + era * 400
  let doy := doe - (365 * yoe + yoe / 4 - yoe / 100)
  let mp := (5 * doy + 2) / 153
  let d := doy - (153 * mp + 2) / 5 + 1
  let m := if mp < 10 then mp + 3 else mp - 9
  (y + (if m ≤ 2 then 1 else 0), m, d)

/-- Microseconds of the wall-clock reading since the epoch (ignoring the
offset). -/
def wallUs (dt : PyDateTime) : Int :=
  daysFromCivil dt.year dt.month dt.day * 86400000000
    + ((dt.hour * 3600 + dt.minute * 60 + dt.second : Nat) : Int) * 1000000
    + (dt.usec : Int)

/-- Microseconds since the epoch of the instant an aware datetime denotes
(for naive values the offset is taken as zero). -/
def dtInstant (dt : PyDateTime) : Int :=
  wallUs dt - (dt.tz.getD 0) * 1000000

/-- Python `<` on datetimes: aware/aware compares instants, naive/naive
compares wall clocks, mixing raises `TypeError` (modelled as `none`). -/
def pyDtLt (a b : PyDateTime) : Option Bool :=
  match a.tz, b.tz with
  | some _, some _ => some (decide (dtInstant a < dtInstant b))
  | none, none => some (decide (wallUs a < wallUs b))
  | _, _ => none

/-- Rebuild a datetime from a wall-clock microsecond count and an offset. -/
def fromWallUs (w : Int) (tz : Option Int) : PyDateTime :=
  let days := Int.fdiv w 86400000000
  let rem := (w - days * 86400000000).toNat
  let ymd := civilFromDays days
  { year := ymd.1.toNat, month := ymd.2.1, day := ymd.2.2
    , hour := rem / 3600000000, minute := rem % 3600000000 / 60000000
    , second := rem % 60000000 / 1000000, usec := rem % 1000000, tz := tz }

/-- Python `dt + timedelta(seconds=n)`: shift the wall clock, keep the
offset. -/
def addSeconds (dt : PyDateTime) (n : Int) : PyDateTime :=
  fromWallUs (wallUs dt + n * 1000000) dt.tz

/-- Decimal digits of a natural number (fuel-indexed). -/
def natDigitsAux : Nat → Nat → List Char
  | 0, _ => []
  | f + 1, n =>
    if n < 10 then [Char.ofNat ('0'.toNat + n)]
    else natDigitsAux f (n / 10) ++ [Char.ofNat ('0'.toNat + n % 10)]

/-- Zero-padded decimal rendering. -/
def padNum (width n : Nat) : String :=
  let ds := natDigitsAux (n + 1) n
  ⟨List.replicate (width - ds.length) '0' ++ ds⟩

/-- Embedding of `to_iso8601_z` (app.py lines 77-81): treat naive values
as UTC, convert to UTC, format with `isoformat` and replace the `+00:00`
suffix by `Z` (`isoformat` omits microseconds when they are zero). -/
def to_iso8601_z (dt : PyDateTime) : String :=
  let dt := if dt.tz.isNone then { dt with tz := some 0 } else dt
  let u := fromWallUs (dtInstant dt) (some 0)
  padNum 4 u.year ++ "-" ++ padNum 2 u.month ++ "-" ++ padNum 2 u.day
    ++ "T" ++ padNum 2 u.hour ++ ":" ++ padNum 2 u.minute ++ ":" ++ padNum 2 u.second
    ++ (if u.usec ≠ 0 then "." ++ padNum 6 u.usec else "") ++ "Z"

/-- Parse exactly `n` decimal digits. -/
def parseDigits : Nat → List Char → Option (Nat × List Char)
  | 0, l => some (0, l)
  | n + 1, c :: l =>
    if '0' ≤ c ∧ c ≤ '9' then
      match parseDigits n l with
      | some (v, rest) => some ((c.toNat - '0'.toNat) * 10 ^ n + v, rest)
      | none => none
    else none
  | _ + 1, [] => none

/-- Expect one specific character. -/
def expectChar (c : Char) : List Char → Option (List Char)
  | c0 :: l => if c0 = c then some l else none
  | [] => none

/-- Parse the optional fractional-seconds part (exactly 3 or 6 digits, as
in the strict grammar). -/
def parseFrac : List Char → Option (Nat × List Char)
  | '.' :: l =>
    match parseDigits 6 l with
    | some (v, rest) => some (v, rest)
    | none =>
      match parseDigits 3 l with
      | some (v, rest) => some (v * 1000, rest)
      | none => none
  | l => some (0, l)

/-- Parse the optional UTC offset `+HH:MM[:SS]` / `-HH:MM[:SS]`. -/
def parseOffset : List Char → Option (Option Int × List Char)
  | [] => some (none, [])
  | c :: l =>
    if c = '+' ∨ c = '-' then
      match parseDigits 2 l with
      | some (oh, l1) =>
        match expectChar ':' l1 with
        | some l2 =>
          match parseDigits 2 l2 with
          | some (om, l3) =>
            let (os, l4) :=
              match expectChar ':' l3 with
              | some l3' =>
                match parseDigits 2 l3' with
                | some (v, r) => (v, r)
                | none => (0, l3)
              | none => (0, l3)
            let total : Int := (oh * 3600 + om * 60 + os : Nat)
            if om ≤ 59 ∧ os ≤ 59 ∧ total < 86400 then
              some (some (if c = '-' then -total else total), l4)
            else none
          | none => none
        | none => none
      | none => none
    else none

/-- Parse the time-of-day part `HH[:MM[:SS[.frac]]]` with optional
offset. -/
def parseTimePart (l : List Char) : Option (Nat × Nat × Nat × Nat × Option Int) :=
  match parseDigits 2 l with
  | none => none
  | some (h, l1) =>
    let (mi, sec, us, l4) :=
      match expectChar ':' l1 with
      | some l1' =>
        match parseDigits 2 l1' with
        | some (mi, l2) =>
          (match expectChar ':' l2 with
           | some l2' =>
             match parseDigits 2 l2' with
             | some (sec, l3) =>
               (match parseFrac l3 with
                | some (us, l4) => (mi, sec, us, l4)
                | none => (mi, sec, 0, l3))
             | none => (mi, 0, 0, l2)
           | none => (mi, 0, 0, l2))
        | none => (0, 0, 0, l1)
      | none => (0, 0, 0, l1)
    match parseOffset l4 with
    | some (tz, []) =>
      if h ≤ 23 ∧ mi ≤ 59 ∧ sec ≤ 59 then some (h, mi, sec, us, tz) else none
    | _ => none

/-- Model of `datetime.fromisoformat` on the strict common grammar. -/
def fromisoformat (s : String) : Option PyDateTime :=
  match parseDigits 4 s.data with
  | none => none
  | some (y, l1) =>
    match expectChar '-' l1 with
    | none => none
    | some l2 =>
      match parseDigits 2 l2 with
      | none => none
      | some (mo, l3) =>
        match expectChar '-' l3 with
        | none => none
        | some l4 =>
          match parseDigits 2 l4 with
          | none => none
          | some (d, l5) =>
            if ¬ (1 ≤ y ∧ 1 ≤ mo ∧ mo ≤ 12 ∧ 1 ≤ d ∧ d ≤ daysInMonth y mo) then none
            else
              match l5 with
              | [] => some ⟨y, mo, d, 0, 0, 0, 0, none⟩
              | _ :: timeRest =>
                match parseTimePart timeRest with
                | some (h, mi, sec, us, tz) => some ⟨y, mo, d, h, mi, sec, us, tz⟩
                | none => none

/-- Embedding of `parse_iso8601` (app.py lines 84-93): `None` and empty
are `None`; otherwise strip, turn a trailing `Z` into `+00:00`, and run
`fromisoformat`, mapping `ValueError` to `None`. -/
def parse_iso8601 (dt_str : Option String) : Option PyDateTime :=
  match dt_str with
  | none => none
  | some s0 =>
    if s0 = "" then none
    else
      let s := pyStrip s0
      let s := if pyEndsWith s "Z" then ⟨s.data.dropLast⟩ ++ "+00:00" else s
      fromisoformat s

/-! ## HTML tree and the rewriter (`rewrite_links`, app.py lines 199-485)

The rewriter operates on the element tree BeautifulSoup produces; the
HTML parser/serializer themselves are external collaborators (spec section
1), so the tree is the embedding's datatype and parse/serialize are passed
into the endpoint as parameters.  Multi-valued attributes (such as
`class`) are lists, the rest are strings, as in BeautifulSoup.
-/

/-- A BeautifulSoup attribute value: plain string or multi-valued list. -/
inductive AttrVal where
  | s (v : String)
  | l (vs : List String)
  deriving DecidableEq, Repr

/-- Attribute map in document order. -/
abbrev Attrs := List (String × AttrVal)

/-- A node of the parsed HTML tree. -/
inductive HNode where
  | elem (tag : String) (attrs : Attrs) (children : List HNode)
  | text (t : String)
  deriving Repr

/-- Attribute lookup (`tag.get(attr)` as the raw value). -/
def attrGet (attrs : Attrs) (k : String) : Option AttrVal :=
  (attrs.find? (fun kv => kv.1 = k)).map (fun kv => kv.2)

/-- Render an attribute value as the string BeautifulSoup's `get`
effectively yields for single-valued attributes. -/
def attrValStr : AttrVal → String
  | .s v => v
  | .l vs => String.intercalate " " vs

/-- Attribute lookup as an optional string. -/
def attrGetStr (attrs : Attrs) (k : String) : Option String :=
  (attrGet attrs k).map attrValStr

/-- Attribute presence. -/
def hasAttr (attrs : Attrs) (k : String) : Bool :=
  (attrGet attrs k).isSome

/-- Attribute assignment `tag[attr] = v`: replace in place or append. -/
def attrSet (attrs : Attrs) (k : String) (v : AttrVal) : Attrs :=
  match attrs with
  | [] => [(k, v)]
  | (k0, v0) :: rest =>
    if k0 = k then (k0, v) :: rest else (k0, v0) :: attrSet rest k v

/-- The class list (`a.get("class") or []`). -/
def getClasses (attrs : Attrs) : List String :=
  match attrGet attrs "class" with
  | some (.l vs) => vs
  | some (.s v) => [v]
  | none => []

mutual

/-- Keep an element only when the predicate holds of its tag and
attributes (the `decompose()` passes); text is always kept. -/
def filterNode (p : String → Attrs → Bool) : HNode → Option HNode
  | .text t => some (.text t)
  | .elem tag attrs children =>
    if p tag attrs then some (.elem tag attrs (filterNodes p children)) else none

/-- List version of `filterNode`. -/
def filterNodes (p : String → Attrs → Bool) : List HNode → List HNode
  | [] => []
  | n :: ns =>
    match filterNode p n with
    | some n' => n' :: filterNodes p ns
    | none => filterNodes p ns

end

mutual

/-- Rewrite the attributes of every element with a function of its tag,
attributes and (original) children — the shape of every `for tag in
soup.find_all(...)` attribute-rewriting pass. -/
def mapAttrsNode (f : String → Attrs → List HNode → Attrs) : HNode → HNode
  | .text t => .text t
  | .elem tag attrs children =>
    .elem tag (f tag attrs children) (mapAttrsNodes f children)

/-- List version of `mapAttrsNode`. -/
def mapAttrsNodes (f : String → Attrs → List HNode → Attrs) : List HNode → List HNode
  | [] => []
  | n :: ns => mapAttrsNode f n :: mapAttrsNodes f ns

end

mutual

/-- Does a descendant element with the given tag exist
(`a.find("img") is not None`)? -/
def containsTagNode (tag : String) : HNode → Bool
  | .text _ => false
  | .elem tg _ children => tg = tag ∨ containsTagList tag children

/-- List version of `containsTagNode`. -/
def containsTagList (tag : String) : List HNode → Bool
  | [] => false
  | n :: ns => containsTagNode tag n ∨ containsTagList tag ns

end

mutual

/-- Append a child to the first element with the given tag in document
order; the flag reports success. -/
def appendNode (tag : String) (child : HNode) : HNode → HNode × Bool
  | .text t => (.text t, false)
  | .elem tg a c =>
    if tg = tag then (.elem tg a (c ++ [child]), true)
    else
      let r := appendNodes tag child c
      (.elem tg a r.1, r.2)

/-- List version of `appendNode`. -/
def appendNodes (tag : String) (child : HNode) : List HNode → List HNode × Bool
  | [] => ([], false)
  | n :: ns =>
    let r := appendNode tag child n
    if r.2 then (r.1 :: ns, true)
    else
      let rs := appendNodes tag child ns
      (n :: rs.1, rs.2)

end

/-- Python `s.split()` (no argument): split on whitespace runs, dropping
empty segments. -/
def pySplitWs (s : String) : List String :=
  ((s.data.foldr
      (fun c acc =>
        if isPyWs c then [] :: acc
        else
          match acc with
          | g :: gs => (c :: g) :: gs
          | [] => [[c]])
      [[]]).map (fun g => (⟨g⟩ : String))).filter (fun x => x ≠ "")

/-- Embedding of the inner `rewrite_attr` helper (app.py lines 216-229):
skip absent/empty values and `#`/`data:`/`javascript:` targets, resolve
`/static/` against the desktop origin, and wrap through `/m?url=`. -/
def rewrite_attr (base_url : String) (attrs : Attrs) (attr : String) : Attrs :=
  match attrGetStr attrs attr with
  | none => attrs
  | some val =>
    if val = "" then attrs
    else
      let v := pyStrip val
      if pyStartsWith v "#" ∨ pyStartsWith v "data:" ∨ pyStartsWith v "javascript:" then
        attrs
      else
        let abs_url :=
          if pyStartsWith v "/static/" then urljoin "https://en.wikipedia.org/" v
          else urljoin base_url v
        attrSet attrs attr (.s (make_proxy_url abs_url))

/-- Embedding of `normalize_static_url` (app.py lines 305-322). -/
def normalize_static_url (url_val : Option String) : Option String :=
  match url_val with
  | none => none
  | some u =>
    if u = "" then none
    else
      let v := pyStrip u
      if pyStartsWith v "/static/" then some v
      else
        let parsed := if pyStartsWith v "//" then urlparse ("https:" ++ v) else urlparse v
        let host := pyLower parsed.netloc
        if (host = "en.wikipedia.org" ∨ host = "www.wikipedia.org")
            ∧ pyStartsWith parsed.path "/static/" then
          some (parsed.path ++ (if parsed.query ≠ "" then "?" ++ parsed.query else ""))
        else none

/-- One comma-part of a srcset in `normalize_srcset_value`: `none` when
the part is whitespace-only (`continue`), otherwise the part with its URL
token possibly normalized. -/
def normalizeSrcsetPart (p : String) : Option String :=
  match pySplitWs p with
  | [] => none
  | u :: ds =>
    let u' :=
      match normalize_static_url (some u) with
      | some m => m
      | none => u
    some (String.intercalate " " (u' :: ds))

/-- Embedding of `normalize_srcset_value` (app.py lines 325-338). -/
def normalize_srcset_value (srcset : String) : String :=
  if srcset = "" then srcset
  else
    String.intercalate ", "
      (((splitAllOn srcset ',').map pyStrip).filterMap normalizeSrcsetPart)

/-- The anchor-rewriting pass body (app.py lines 258-290) as a function of
the anchor's attributes and children. -/
def anchorAttrs (base_url : String) (attrs : Attrs) (children : List HNode) : Attrs :=
  match attrGet attrs "href" with
  | none => attrs
  | some hv =>
    let href := pyStrip (attrValStr hv)
    if href = "" ∨ pyStartsWith href "#" then attrs
    else
      let classes := getClasses attrs
      let contains_img := containsTagList "img" children
      let abs_href := urljoin base_url href
      let p := urlparse abs_href
      let path := p.path
      let is_file_like := pyStartsWith path "/wiki/File:" ∨ pyStartsWith path "/wiki/Media:"
        ∨ strContains path "/wiki/Special:FilePath/"
      let has_image_class := classes.any (fun c =>
        c = "image" ∨ c = "thumb" ∨ c = "thumbimage" ∨ c = "mwe-image"
          ∨ c = "mw-file-description")
      if contains_img ∨ is_file_like ∨ has_image_class
          ∨ (attrGet attrs "data-file").isSome then
        attrs
      else attrSet attrs "href" (.s (make_proxy_url abs_href))

/-- The `<img>`/`<source>` pass body (app.py lines 341-354): normalize
`src` when possible and normalize a truthy `srcset`. -/
def imgAttrs (attrs : Attrs) : Attrs :=
  let new_src := normalize_static_url (attrGetStr attrs "src")
  let attrs := if truthy new_src then attrSet attrs "src" (.s (new_src.getD "")) else attrs
  if truthy (attrGetStr attrs "srcset") then
    attrSet attrs "srcset" (.s (normalize_srcset_value ((attrGetStr attrs "srcset").getD "")))
  else attrs

/-- The `<video>`/`<audio>` pass body (app.py lines 357-360). -/
def mediaSrcAttrs (attrs : Attrs) : Attrs :=
  let new_src := normalize_static_url (attrGetStr attrs "src")
  if truthy new_src then attrSet attrs "src" (.s (new_src.getD "")) else attrs

/-- The `<form>` pass body (app.py lines 363-366). -/
def formAttrs (base_url : String) (attrs : Attrs) : Attrs :=
  match attrGetStr attrs "action" with
  | none => attrs
  | some action =>
    if action = "" then attrs
    else attrSet attrs "action" (.s (make_proxy_url (urljoin base_url action)))

/-- Removal predicate of the `<meta http-equiv>` pass (app.py lines
206-209): `http-equiv` present and case-insensitively one of the three
embedding-hostile values. -/
def isHostileMeta (tag : String) (attrs : Attrs) : Bool :=
  tag = "meta" ∧ hasAttr attrs "http-equiv"
    ∧ (let v := pyLower ((attrGetStr attrs "http-equiv").getD "")
       v = "content-security-policy" ∨ v = "x-frame-options" ∨ v = "refresh")

/-- Pass of app.py lines 206-209: remove embedding-hostile `<meta>` tags. -/
def metaPass (doc : List HNode) : List HNode :=
  filterNodes (fun tag attrs => ! isHostileMeta tag attrs) doc

/-- Pass of app.py lines 212-213: remove `<base>` tags. -/
def basePass (doc : List HNode) : List HNode :=
  filterNodes (fun tag _ => tag ≠ "base") doc

/-- Pass of app.py lines 258-290: rewrite non-media anchors. -/
def anchorPass (base_url : String) (doc : List HNode) : List HNode :=
  mapAttrsNodes
    (fun tag attrs children =>
      if tag = "a" ∧ hasAttr attrs "href" then anchorAttrs base_url attrs children
      else attrs) doc

/-- Pass of app.py lines 293-294: rewrite `<link href>`. -/
def linkPass (base_url : String) (doc : List HNode) : List HNode :=
  mapAttrsNodes
    (fun tag attrs _ =>
      if tag = "link" ∧ hasAttr attrs "href" then rewrite_attr base_url attrs "href"
      else attrs) doc

/-- Pass of app.py lines 297-298: rewrite `<script src>`. -/
def scriptPass (base_url : String) (doc : List HNode) : List HNode :=
  mapAttrsNodes
    (fun tag attrs _ =>
      if tag = "script" ∧ hasAttr attrs "src" then rewrite_attr base_url attrs "src"
      else attrs) doc

/-- Pass of app.py lines 341-346: normalize `<img>` src/srcset. -/
def imgPass (doc : List HNode) : List HNode :=
  mapAttrsNodes (fun tag attrs _ => if tag = "img" then imgAttrs attrs else attrs) doc

/-- Pass of app.py lines 349-354: normalize `<source>` src/srcset. -/
def sourcePass (doc : List HNode) : List HNode :=
  mapAttrsNodes (fun tag attrs _ => if tag = "source" then imgAttrs attrs else attrs) doc

/-- Pass of app.py lines 357-360: normalize `<video>`/`<audio>` src. -/
def videoAudioPass (doc : List HNode) : List HNode :=
  mapAttrsNodes
    (fun tag attrs _ =>
      if tag = "video" ∨ tag = "audio" then mediaSrcAttrs attrs else attrs) doc

/-- Pass of app.py lines 363-366: rewrite `<form action>`. -/
def formPass (base_url : String) (doc : List HNode) : List HNode :=
  mapAttrsNodes
    (fun tag attrs _ => if tag = "form" then formAttrs base_url attrs else attrs) doc

/-- Pass of app.py lines 371-482: append the injected script to the first
`<body>`, else the first `<head>`, else the document root. -/
def injectPass (injectText : String) (doc : List HNode) : List HNode :=
  let script := HNode.elem "script" [] [HNode.text injectText]
  let tryBody := appendNodes "body" script doc
  if tryBody.2 then tryBody.1
  else
    let tryHead := appendNodes "head" script doc
    if tryHead.2 then tryHead.1
    else doc ++ [script]

/-- Embedding of `rewrite_links` as the tree transformation between the
external parse and serialize steps, composing the passes in source order.
`injectText` is the verbatim client-side script payload (app.py lines
372-474), which the spec treats as an opaque literal artifact; no claim
depends on its text, so it is a parameter. -/
def rewrite_links (injectText : String) (base_url : String) (doc : List HNode) :
    List HNode :=
  injectPass injectText
    (formPass base_url
      (videoAudioPass
        (sourcePass
          (imgPass
            (scriptPass base_url
              (linkPass base_url
                (anchorPass base_url
                  (basePass
                    (metaPass doc)))))))))

mutual

/-- Does the tree contain a `<meta http-equiv>` element whose value is
case-insensitively `content-security-policy`? -/
def hasMetaCspNode : HNode → Bool
  | .text _ => false
  | .elem tag attrs children =>
    (tag = "meta" ∧ hasAttr attrs "http-equiv"
      ∧ pyLower ((attrGetStr attrs "http-equiv").getD "") = "content-security-policy")
    ∨ hasMetaCspList children

/-- List version of `hasMetaCspNode`. -/
def hasMetaCspList : List HNode → Bool
  | [] => false
  | n :: ns => hasMetaCspNode n ∨ hasMetaCspList ns

end

/-- The `href` attribute of the first top-level node of a document, when
that node is an element. -/
def firstHref (doc : List HNode) : Option String :=
  match doc with
  | .elem _ attrs _ :: _ => attrGetStr attrs "href"
  | _ => none

/-- A document consisting of a single anchor whose href is a
`javascript:` URL. -/
def docAnchorJs : List HNode :=
  [.elem "a" [("href", .s "javascript:void(0)")] [.text "x"]]

/-! ## The `/m` endpoint (`mobile`, app.py lines 586-801)

The Flask endpoint becomes a pure function of an explicit environment:
request arguments and headers, the serving host, whether the store is
configured, the row the store would return, the current time, the external
HTML parse/serialize functions, and the outbound HTTP client as a
function from request headers to a response or a network error.  The
result records the produced response, the row passed to `cache_upsert`
(if any), and the headers of the upstream request (if one was made).
A `TypeError` escaping the handler (comparing an aware `utcnow()` with a
naive stored timestamp) is modelled as `Except.error`.
-/

/-- A cache row as read from the store: every column may be missing. -/
structure CacheEntry where
  status : Option Int := none
  content_type : Option String := none
  body : Option String := none
  body_sha256 : Option String := none
  etag : Option String := none
  last_modified : Option String := none
  ttl_seconds : Option Int := none
  next_refresh_at : Option String := none
  fetched_at : Option String := none
  last_changed_at : Option String := none
  deriving DecidableEq, Repr

/-- A row passed to `cache_upsert`. -/
structure CacheRow where
  cache_key : String
  url : String
  lang_key : String
  rewrite_version : Int
  status : Int
  content_type : String
  body : String
  body_sha256 : String
  etag : Option String
  last_modified : Option String
  ttl_seconds : Int
  next_refresh_at : String
  fetched_at : String
  last_checked_at : String
  last_changed_at : Option String
  deriving DecidableEq, Repr

/-- An upstream `requests` response. -/
structure UpstreamResp where
  status_code : Int
  headers : List (String × String)
  text : String
  content : String
  deriving DecidableEq, Repr

/-- A produced Flask response (body, status, explicitly set headers). -/
structure PyResponse where
  body : String
  status : Int
  headers : List (String × String)
  deriving DecidableEq, Repr

/-- Observable outcome of one `mobile` request: the response, the row
upserted into the cache (if any), and the headers of the upstream GET
(if one was issued). -/
structure MobileOut where
  resp : PyResponse
  upsert : Option CacheRow
  sent : Option (List (String × String))
  deriving DecidableEq, Repr

/-- The request environment of one `mobile` call. -/
structure MobileEnv where
  host : String
  urlArg : Option String
  pathArg : Option String
  acceptHeader : Option String
  acceptLanguage : Option String
  cacheEnabled : Bool
  storeEntry : Option CacheEntry
  now : PyDateTime
  injectText : String
  parseHtml : String → List HNode
  serializeHtml : List HNode → String
  fetch : List (String × String) → Except String UpstreamResp

/-- Case-insensitive header lookup (requests' `CaseInsensitiveDict`). -/
def ciGet (hs : List (String × String)) (k : String) : Option String :=
  (hs.find? (fun kv => pyLower kv.1 = pyLower k)).map (fun kv => kv.2)

/-- Python `a or b` for a string option against a string default. -/
def strOr (a : Option String) (b : String) : String :=
  if truthy a then a.getD "" else b

/-- Python `int(a or b)` for an optional stored integer (`0` and `None`
are falsy). -/
def pyOrInt (a : Option Int) (b : Int) : Int :=
  match a with
  | some v => if v = 0 then b else v
  | none => b

/-- Decimal rendering of an integer. -/
def intRepr (n : Int) : String :=
  if n < 0 then "-" ++ (⟨natDigitsAux (n.natAbs + 1) n.natAbs⟩ : String)
  else ⟨natDigitsAux (n.natAbs + 1) n.natAbs⟩

/-- Embedding of `lang_key_from_accept_language` (app.py lines 96-103). -/
def lang_key_from_accept_language (header_val : Option String) : String :=
  match header_val with
  | none => "en"
  | some h =>
    if h = "" then "en"
    else
      let first := pyStrip (takeUntilChar h ',')
      if first = "" then "en"
      else
        let tag := pyLower (pyStrip (takeUntilChar first ';'))
        if tag = "" then "en" else tag

/-- Embedding of `canonicalize_url_for_cache` (app.py lines 106-111):
re-serialize with the fragment cleared. -/
def canonicalize_url_for_cache (url : String) : String :=
  urlunparse { urlparse url with fragment := "" }

/-- Embedding of `compute_cache_key` (app.py lines 118-121). -/
def compute_cache_key (url lang_key : String) : String :=
  sha256_hex ("v" ++ intRepr CACHE_REWRITE_VERSION ++ "|" ++ lang_key ++ "|"
    ++ canonicalize_url_for_cache url)

/-- Embedding of `is_cacheable_html_target` (app.py lines 124-133). -/
def is_cacheable_html_target (parsed : UrlSplit) : Bool :=
  let path := pyStrip parsed.path
  if path = "" ∨ path = "/" then true
  else if pyStartsWith path "/wiki/" then true
  else if path = "/w/index.php" then true
  else false

/-- The browser-like User-Agent of the HTML fetch (app.py line 621). -/
def BROWSER_UA : String :=
  "Mozilla/5.0 (Macintosh; Intel Mac OS X 10_15_7) AppleWebKit/537.36 (KHTML, like Gecko) Chrome/124.0.0.0 Safari/537.36"

/-- Default Accept header (app.py line 624). -/
def DEFAULT_ACCEPT : String :=
  "text/html,application/xhtml+xml,application/xml;q=0.9,image/avif,image/webp,*/*;q=0.8"

/-- Default Accept-Language header (app.py line 626). -/
def DEFAULT_ACCEPT_LANGUAGE : String := "en-US,en;q=0.9"

/-- The `upstream_headers` dict (app.py lines 620-627). -/
def upstreamHeaders (acceptHeader acceptLanguage : Option String) :
    List (String × String) :=
  [ ("User-Agent", BROWSER_UA)
  , ("Accept", acceptHeader.getD DEFAULT_ACCEPT)
  , ("Accept-Language", acceptLanguage.getD DEFAULT_ACCEPT_LANGUAGE) ]

/-- The `conditional_headers` dict (app.py lines 655-659): add
`If-None-Match` / `If-Modified-Since` from truthy stored validators. -/
def conditionalHeaders (base : List (String × String)) (e : CacheEntry) :
    List (String × String) :=
  let hs := base
  let hs := if truthy e.etag then hs ++ [("If-None-Match", e.etag.getD "")] else hs
  if truthy e.last_modified then hs ++ [("If-Modified-Since", e.last_modified.getD "")]
  else hs

/-- The `html_response` helper (app.py lines 634-641). -/
def html_response (body : String) (status : Int) (cache_state : Option String) :
    PyResponse :=
  { body := body, status := status
    , headers := [("Content-Type", "text/html; charset=utf-8"), ("Cache-Control", "no-store")]
        ++ (match cache_state with
            | some cs => [("X-WikiPro-Cache", cs)]
            | none => []) }

/-- Target resolution (app.py lines 590-605). -/
def resolveTarget (host : String) (urlArg pathArg : Option String) : String :=
  if truthy urlArg then
    let raw := urlArg.getD ""
    if pyStartsWith raw "/" then absolutize raw
    else unwrap_proxy_url host raw
  else if truthy pathArg then absolutize (pathArg.getD "")
  else WIKI_BASE

/-- The fresh-hit test (app.py lines 643-651): `true` means the HIT
response is returned; comparing against a naive parsed timestamp raises
`TypeError` (modelled as `Except.error`). -/
def freshHitCheck (e : CacheEntry) (now : PyDateTime) : Except Unit Bool :=
  if truthy e.body ∧ truthy e.next_refresh_at then
    match parse_iso8601 e.next_refresh_at with
    | some nr =>
      match pyDtLt now nr with
      | none => .error ()
      | some lt => .ok lt
    | none => .ok false
  else .ok false

/-- The stale-entry conditional revalidation branch (app.py lines
654-752), entered when a truthy cached body exists but is not fresh. -/
def staleRevalidate (env : MobileEnv) (target canonical_target lang_key ck : String)
    (uh : List (String × String)) (e : CacheEntry) : MobileOut :=
  let conditional := conditionalHeaders uh e
  match env.fetch conditional with
  | .error _ =>
    ⟨html_response (strOr e.body "") (pyOrInt e.status 200) (some "STALE"),
      none, some conditional⟩
  | .ok resp =>
    let content_type := (ciGet resp.headers "Content-Type").getD ""
    if resp.status_code = 304 then
      let cached_status := pyOrInt e.status 200
      let can_grow : Bool := cached_status = 200
      let ttl := next_ttl_seconds e.ttl_seconds can_grow
      let next_refresh_at := addSeconds env.now ttl
      let row : CacheRow := {
        cache_key := ck,
        url := canonical_target,
        lang_key := lang_key,
        rewrite_version := CACHE_REWRITE_VERSION,
        status := cached_status,
        content_type := strOr e.content_type "text/html; charset=utf-8",
        body := strOr e.body "",
        body_sha256 := strOr e.body_sha256 (sha256_hex (strOr e.body "")),
        etag := pyOrStr (ciGet resp.headers "ETag") e.etag,
        last_modified := pyOrStr (ciGet resp.headers "Last-Modified") e.last_modified,
        ttl_seconds := ttl,
        next_refresh_at := to_iso8601_z next_refresh_at,
        fetched_at := strOr e.fetched_at (to_iso8601_z env.now),
        last_checked_at := to_iso8601_z env.now,
        last_changed_at :=
          some (strOr e.last_changed_at (strOr e.fetched_at (to_iso8601_z env.now))) }
      ⟨html_response (strOr e.body "") cached_status (some "REVALIDATED"),
        some row, some conditional⟩
    else if ¬ strContains content_type "text/html" then
      ⟨⟨resp.content, resp.status_code,
          [ ("Content-Type", if content_type = "" then "application/octet-stream" else content_type)
          , ("Cache-Control", "no-store") ]⟩,
        none, some conditional⟩
    else
      let replaced := env.serializeHtml (rewrite_links env.injectText target (env.parseHtml resp.text))
      let body_hash := sha256_hex replaced
      let cached_hash := e.body_sha256
      let unchanged : Bool := resp.status_code = 200 ∧ pyOrInt e.status 0 = 200
        ∧ truthy cached_hash ∧ body_hash = cached_hash.getD ""
      let ttl := next_ttl_seconds e.ttl_seconds unchanged
      let ttl := if ¬ unchanged then CACHE_TTL_MIN_SECONDS else ttl
      let next_refresh_at := addSeconds env.now ttl
      let row : CacheRow := {
        cache_key := ck,
        url := canonical_target,
        lang_key := lang_key,
        rewrite_version := CACHE_REWRITE_VERSION,
        status := resp.status_code,
        content_type := "text/html; charset=utf-8",
        body := replaced,
        body_sha256 := body_hash,
        etag := ciGet resp.headers "ETag",
        last_modified := ciGet resp.headers "Last-Modified",
        ttl_seconds := ttl,
        next_refresh_at := to_iso8601_z next_refresh_at,
        fetched_at := to_iso8601_z env.now,
        last_checked_at := to_iso8601_z env.now,
        last_changed_at :=
          if unchanged then e.last_changed_at else some (to_iso8601_z env.now) }
      ⟨html_response replaced resp.status_code
          (some (if unchanged then "UNCHANGED" else "REFRESH")),
        some row, some conditional⟩

/-- The cache-miss branch (app.py lines 754-801). -/
def missFetch (env : MobileEnv) (target canonical_target lang_key : String)
    (wants_cache : Bool) (cache_key : Option String)
    (uh : List (String × String)) : MobileOut :=
  match env.fetch uh with
  | .error msg =>
    ⟨⟨"Upstream fetch error: " ++ msg, 502, []⟩, none, some uh⟩
  | .ok resp =>
    let content_type := (ciGet resp.headers "Content-Type").getD ""
    if ¬ strContains content_type "text/html" then
      ⟨⟨resp.content, resp.status_code,
          [ ("Content-Type", if content_type = "" then "application/octet-stream" else content_type)
          , ("Cache-Control", "no-store") ]⟩,
        none, some uh⟩
    else
      let replaced := env.serializeHtml (rewrite_links env.injectText target (env.parseHtml resp.text))
      let upsert :=
        if wants_cache ∧ cache_key.isSome then
          let ttl := CACHE_TTL_MIN_SECONDS
          let next_refresh_at := addSeconds env.now ttl
          some ({
            cache_key := cache_key.getD "",
            url := canonical_target,
            lang_key := lang_key,
            rewrite_version := CACHE_REWRITE_VERSION,
            status := resp.status_code,
            content_type := "text/html; charset=utf-8",
            body := replaced,
            body_sha256 := sha256_hex replaced,
            etag := ciGet resp.headers "ETag",
            last_modified := ciGet resp.headers "Last-Modified",
            ttl_seconds := ttl,
            next_refresh_at := to_iso8601_z next_refresh_at,
            fetched_at := to_iso8601_z env.now,
            last_checked_at := to_iso8601_z env.now,
            last_changed_at := some (to_iso8601_z env.now) } : CacheRow)
        else none
      ⟨html_response replaced resp.status_code
          (if wants_cache then some "MISS" else none),
        upsert, some uh⟩

/-- Embedding of the `mobile` endpoint (app.py lines 586-801). -/
def mobile (env : MobileEnv) : Except Unit MobileOut :=
  let target := resolveTarget env.host env.urlArg env.pathArg
  let parsed := urlparse target
  if ¬ (parsed.scheme = "http" ∨ parsed.scheme = "https") then
    .ok ⟨⟨"Invalid scheme.", 400, []⟩, none, none⟩
  else if ¬ is_allowed_wikimedia_host parsed.netloc then
    .ok ⟨⟨"Host not allowed.", 403, []⟩, none, none⟩
  else
    let lang_key := lang_key_from_accept_language env.acceptLanguage
    let canonical_target := canonicalize_url_for_cache target
    let uh := upstreamHeaders env.acceptHeader env.acceptLanguage
    let wants_cache := env.cacheEnabled && is_cacheable_html_target parsed
    let cache_key :=
      if wants_cache then some (compute_cache_key canonical_target lang_key) else none
    let entry := if wants_cache ∧ cache_key.isSome then env.storeEntry else none
    match entry with
    | some e =>
      match freshHitCheck e env.now with
      | .error _ => .error ()
      | .ok true =>
        .ok ⟨html_response (strOr e.body "") (pyOrInt e.status 200) (some "HIT"),
          none, none⟩
      | .ok false =>
        if truthy e.body then
          .ok (staleRevalidate env target canonical_target lang_key
            (cache_key.getD "") uh e)
        else
          .ok (missFetch env target canonical_target lang_key wants_cache cache_key uh)
    | none => .ok (missFetch env target canonical_target lang_key wants_cache cache_key uh)

/-- Meta element that is specifically the CSP variant. -/
def isCspMeta (tag : String) (attrs : Attrs) : Bool :=
  tag = "meta" ∧ hasAttr attrs "http-equiv"
    ∧ pyLower ((attrGetStr attrs "http-equiv").getD "") = "content-security-policy"

/-! ## Concrete request environments exercising the endpoint -/

/-- A concrete cached HTML body. -/
def cachedBody : String := "<html>cached</html>"

/-- A complete cached entry whose refresh deadline (2026-01-01) lies before
the request instant used below (2026-01-02), making it stale. -/
def staleEntry : CacheEntry := {
  status := some 200, content_type := some "text/html; charset=utf-8",
  body := some cachedBody, body_sha256 := some (sha256_hex cachedBody),
  etag := some "abc", last_modified := none, ttl_seconds := some 600,
  next_refresh_at := some "2026-01-01T00:00:00Z",
  fetched_at := some "2025-12-31T00:00:00Z",
  last_changed_at := some "2025-12-31T00:00:00Z" }

/-- A request for an allowed article URL against a store holding
`staleEntry`, whose upstream fetch fails. -/
def baseEnv : MobileEnv := {
  host := "proxy.local", urlArg := some "https://en.m.wikipedia.org/wiki/Cat",
  pathArg := none, acceptHeader := none, acceptLanguage := none,
  cacheEnabled := true, storeEntry := some staleEntry,
  now := ⟨2026, 1, 2, 0, 0, 0, 0, some 0⟩, injectText := "",
  parseHtml := fun _ => [], serializeHtml := fun _ => "",
  fetch := fun _ => .error "boom" }

/-- Variant of `baseEnv` whose upstream answers 304 Not Modified. -/
def rv304Env : MobileEnv := { baseEnv with
  fetch := fun _ => .ok ⟨304, [("ETag", "xyz")], "", ""⟩ }

/-- Variant of `staleEntry` with an unparseable refresh timestamp. -/
def badDateEntry : CacheEntry := { staleEntry with next_refresh_at := some "not-a-date" }

/-- Variant of `baseEnv` over `badDateEntry`. -/
def badDateEnv : MobileEnv := { baseEnv with storeEntry := some badDateEntry }

/-- Variant of `staleEntry` with no stored body. -/
def emptyBodyEntry : CacheEntry := { staleEntry with body := none }

/-- Variant of `baseEnv` over `emptyBodyEntry`. -/
def emptyBodyEnv : MobileEnv := { baseEnv with storeEntry := some emptyBodyEntry }

/-! ## Lemmas about the TTL step -/

theorem ttlCur_pos (c : Option Int) : 0 < ttlCur c := by
  simp only [ttlCur, CACHE_TTL_MIN_SECONDS]
  split <;> omega

theorem ttlGrown_gt (cur : Int) (h : 0 < cur) : cur < ttlGrown cur := by
  simp only [ttlGrown, CACHE_TTL_MIN_SECONDS, CACHE_TTL_GROWTH_FACTOR]
  split <;> omega

theorem ttlClamp_bounds (g : Int) :
    CACHE_TTL_MIN_SECONDS ≤ ttlClamp g ∧ ttlClamp g ≤ CACHE_TTL_MAX_SECONDS := by
  simp only [ttlClamp, CACHE_TTL_MIN_SECONDS, CACHE_TTL_MAX_SECONDS]
  constructor <;> (split_ifs <;> omega)

theorem ttlClamp_ge (g t : Int) (h1 : t ≤ g) (h2 : t ≤ CACHE_TTL_MAX_SECONDS) :
    t ≤ ttlClamp g := by
  simp only [ttlClamp, CACHE_TTL_MIN_SECONDS, CACHE_TTL_MAX_SECONDS] at *
  split_ifs <;> omega

theorem next_ttl_true_bounds (c : Option Int) :
    CACHE_TTL_MIN_SECONDS ≤ next_ttl_seconds c true
    ∧ next_ttl_seconds c true ≤ CACHE_TTL_MAX_SECONDS := by
  have h := ttlClamp_bounds (ttlGrown (ttlCur c))
  simpa [next_ttl_seconds] using h

theorem next_ttl_true_ge (t : Int)
    (hmin : CACHE_TTL_MIN_SECONDS ≤ t) (hmax : t ≤ CACHE_TTL_MAX_SECONDS) :
    t ≤ next_ttl_seconds (some t) true := by
  have hpos : (0 : Int) < t := by
    simp only [CACHE_TTL_MIN_SECONDS] at hmin; omega
  have hcur : ttlCur (some t) = t := by
    simp only [ttlCur, Option.getD]
    rw [if_neg (by omega)]
  have hg : t < ttlGrown t := ttlGrown_gt t hpos
  have h := ttlClamp_ge (ttlGrown t) t (le_of_lt hg) hmax
  simpa [next_ttl_seconds, hcur] using h

theorem ttlSeq_bounds (start : Option Int) (n : Nat) :
    CACHE_TTL_MIN_SECONDS ≤ ttlSeq start n ∧ ttlSeq start n ≤ CACHE_TTL_MAX_SECONDS := by
  cases n with
  | zero => exact next_ttl_true_bounds start
  | succ m => exact next_ttl_true_bounds (some (ttlSeq start m))

/-! ## Claim theorems: C1, C2, C6 -/

/-- C1 (counterexample): the claim characterises the allowlist by port
stripping and lower-casing alone, but the source also strips surrounding
whitespace; the host `" wikipedia.org"` (leading space) is accepted by the
code while the claimed characterisation rejects it. -/
theorem C1_allowlist_counterexample :
    is_allowed_wikimedia_host " wikipedia.org" = true
    ∧ allowedHostClaimSpec " wikipedia.org" = false := by
  constructor <;> decide

/-- C1 (amended): for every host, the allowlist returns true iff, after
lower-casing, stripping surrounding whitespace and stripping any port
suffix, the host equals one of the two upload/commons hosts or equals or is
a dot-suffix of one of the eleven apex domains; the empty host is rejected,
`"en.m.wikipedia.org"` is accepted, and the adversarial hosts
`"evilwikipedia.org"` and `"wikipedia.org.attacker.com"` are rejected. -/
theorem C1_allowlist_amended :
    (∀ host, is_allowed_wikimedia_host host = allowedHostAmendedSpec host)
    ∧ is_allowed_wikimedia_host "en.m.wikipedia.org" = true
    ∧ is_allowed_wikimedia_host "evilwikipedia.org" = false
    ∧ is_allowed_wikimedia_host "wikipedia.org.attacker.com" = false
    ∧ is_allowed_wikimedia_host "" = false :=
  ⟨fun _ => rfl, by decide, by decide, by decide, rfl⟩

/-- C2 (counterexample): the claim bases growth on `cur = max(current,
TTL_MIN)`, but the source keeps any positive stored TTL as the base; for a
stored TTL of 300 seconds the code returns 600 while the claimed rule
returns 1200. -/
theorem C2_ttl_counterexample :
    next_ttl_seconds (some 300) true = 600
    ∧ nextTtlClaimSpec (some 300) true = 1200 := by
  constructor <;> decide

/-- C2 (amended): `next_ttl_seconds` returns TTL_MIN when `can_grow` is
false; otherwise the growth base `cur` is the stored TTL when present and
positive (even when below TTL_MIN) and TTL_MIN otherwise, the grown value
is `floor(cur * GROWTH_FACTOR)` bumped to `cur + TTL_MIN` when not a strict
increase, and the result is clamped to `[TTL_MIN, TTL_MAX]`. -/
theorem C2_ttl_amended :
    ∀ (current : Option Int) (can_grow : Bool),
      next_ttl_seconds current can_grow = nextTtlAmendedSpec current can_grow := by
  intro c g
  cases g with
  | false => rfl
  | true =>
    cases c with
    | none => rfl
    | some n =>
      have heq : ttlCur (some n) = (if 0 < n then n else CACHE_TTL_MIN_SECONDS) := by
        simp only [ttlCur, Option.getD, CACHE_TTL_MIN_SECONDS]
        split_ifs <;> omega
      show ttlClamp (ttlGrown (ttlCur (some n)))
          = ttlClamp (ttlGrown (if 0 < n then n else CACHE_TTL_MIN_SECONDS))
      rw [heq]

/-- C6: from any starting TTL value, the sequence of TTLs produced by
consecutive `can_grow = true` applications of `next_ttl_seconds` is
non-decreasing and stays within `[TTL_MIN, TTL_MAX]`, and a single
application with `can_grow = false` returns exactly TTL_MIN. -/
theorem C6_ttl_growth_monotone :
    ∀ (start : Option Int) (n : Nat),
      ttlSeq start n ≤ ttlSeq start (n + 1)
      ∧ CACHE_TTL_MIN_SECONDS ≤ ttlSeq start n
      ∧ ttlSeq start n ≤ CACHE_TTL_MAX_SECONDS
      ∧ (∀ c, next_ttl_seconds c false = CACHE_TTL_MIN_SECONDS) := by
  intro start n
  obtain ⟨h1, h2⟩ := ttlSeq_bounds start n
  refine ⟨?_, h1, h2, fun c => rfl⟩
  have h := next_ttl_true_ge (ttlSeq start n) h1 h2
  simpa [ttlSeq] using h

/-! ## Unwrap lemmas and the C3 claim -/

theorem unwrap_stuck_fix (host : String) (n : Nat) (u : String)
    (h : peelStep host u = none) : unwrapAux host n u = u := by
  cases n <;> simp [unwrapAux, h]

theorem unwrapAux_reaches (host : String) :
    ∀ (n : Nat) (u : String),
      ∃ k, k ≤ n ∧ unwrapAux host n u = unwrapAux host k u
        ∧ (k < n → peelStep host (unwrapAux host k u) = none) := by
  intro n
  induction n with
  | zero => intro u; exact ⟨0, le_refl 0, rfl, by omega⟩
  | succ m ih =>
    intro u
    cases hp : peelStep host u with
    | none =>
      refine ⟨0, Nat.zero_le _, ?_, ?_⟩
      · simp [unwrapAux, hp]
      · intro _; simpa [unwrapAux] using hp
    | some v =>
      obtain ⟨k, hk, he, hs⟩ := ih v
      refine ⟨k + 1, by omega, ?_, ?_⟩
      · simpa [unwrapAux, hp] using he
      · intro hlt
        have := hs (by omega)
        simpa [unwrapAux, hp] using this

/-- C3 (counterexample): unwrapping is not idempotent.  A URL wrapped nine
times in the proxy's own `/m?url=` envelope exhausts the 8-hop budget, so
the first unwrap stops one layer short, and a second unwrap still makes
progress. -/
theorem C3_unwrap_counterexample :
    unwrap_proxy_url "localhost:5000" (unwrap_proxy_url "localhost:5000" deepWrappedUrl)
      ≠ unwrap_proxy_url "localhost:5000" deepWrappedUrl := by
  decide

/-- C3 (amended): unwrapping performs at most 8 peeling iterations, and
when it stops before exhausting the budget the result is fully unwrapped;
consequently `unwrap` is idempotent on every URL whose unwrap result is no
longer peelable (in particular whenever fewer than 8 peels were needed),
but not in general: a URL nested more than 8 levels deep is only partially
unwrapped. -/
theorem C3_unwrap_amended :
    ∀ (host u : String),
      (∃ k, k ≤ 8 ∧ unwrap_proxy_url host u = unwrapAux host k u
        ∧ (k < 8 → peelStep host (unwrapAux host k u) = none))
      ∧ (peelStep host (unwrap_proxy_url host u) = none →
          unwrap_proxy_url host (unwrap_proxy_url host u) = unwrap_proxy_url host u) := by
  intro host u
  refine ⟨unwrapAux_reaches host 8 u, fun h => unwrap_stuck_fix host 8 _ h⟩

/-- C3 (witness): the amended idempotence applied to a singly-wrapped
concrete URL on the serving host `localhost:5000`. -/
theorem C3_unwrap_amended_witness :
    unwrap_proxy_url "localhost:5000"
        (unwrap_proxy_url "localhost:5000"
          "http://localhost:5000/m?url=https://en.wikipedia.org/wiki/Cat")
      = unwrap_proxy_url "localhost:5000"
          "http://localhost:5000/m?url=https://en.wikipedia.org/wiki/Cat" :=
  (C3_unwrap_amended "localhost:5000"
      "http://localhost:5000/m?url=https://en.wikipedia.org/wiki/Cat").2
    (by decide)

/-! ## Rewriter lemmas and the C8 claim -/



theorem isCspMeta_imp_hostile (t : String) (a : Attrs)
    (h : isCspMeta t a = true) : isHostileMeta t a = true := by
  simp only [isCspMeta, decide_eq_true_eq] at h
  simp only [isHostileMeta, decide_eq_true_eq]
  exact ⟨h.1, h.2.1, Or.inl h.2.2⟩

theorem hasMetaCspNode_elem (tg : String) (a : Attrs) (c : List HNode) :
    hasMetaCspNode (.elem tg a c) = (isCspMeta tg a || hasMetaCspList c) := by
  simp [hasMetaCspNode, isCspMeta, Bool.or_eq_true, decide_eq_true_eq]

theorem hasMetaCspList_cons (n : HNode) (ns : List HNode) :
    hasMetaCspList (n :: ns) = (hasMetaCspNode n || hasMetaCspList ns) := by
  simp [hasMetaCspList]

theorem hasMetaCspList_append (xs ys : List HNode) :
    hasMetaCspList (xs ++ ys) = (hasMetaCspList xs || hasMetaCspList ys) := by
  induction xs with
  | nil => simp [hasMetaCspList]
  | cons n ns ih => simp [hasMetaCspList_cons, ih, Bool.or_assoc]

mutual

theorem hostileFilterNode : ∀ (n n' : HNode),
    filterNode (fun t a => ! isHostileMeta t a) n = some n' → hasMetaCspNode n' = false
  | .text t, n', h => by
    simp only [filterNode, Option.some.injEq] at h
    subst h
    simp [hasMetaCspNode]
  | .elem tg a c, n', h => by
    simp only [filterNode] at h
    cases hb : isHostileMeta tg a with
    | true => simp [hb] at h
    | false =>
      simp [hb] at h
      subst h
      rw [hasMetaCspNode_elem]
      have hc : isCspMeta tg a = false := by
        cases hm : isCspMeta tg a with
        | false => rfl
        | true => rw [isCspMeta_imp_hostile tg a hm] at hb; exact absurd hb (by simp)
      rw [hc, hostileFilterList c]
      rfl

theorem hostileFilterList : ∀ (ns : List HNode),
    hasMetaCspList (filterNodes (fun t a => ! isHostileMeta t a) ns) = false
  | [] => by simp [filterNodes, hasMetaCspList]
  | n :: ns => by
    simp only [filterNodes]
    cases hf : filterNode (fun t a => ! isHostileMeta t a) n with
    | none => exact hostileFilterList ns
    | some n' =>
      rw [hasMetaCspList_cons, hostileFilterNode n n' hf, hostileFilterList ns]
      rfl

end

mutual

theorem filterKeepNoCspNode : ∀ (p : String → Attrs → Bool) (n n' : HNode),
    hasMetaCspNode n = false → filterNode p n = some n' → hasMetaCspNode n' = false
  | p, .text t, n', _, h => by
    simp only [filterNode, Option.some.injEq] at h
    subst h
    simp [hasMetaCspNode]
  | p, .elem tg a c, n', hn, h => by
    simp only [filterNode] at h
    cases hb : p tg a with
    | false => simp [hb] at h
    | true =>
      simp [hb] at h
      subst h
      rw [hasMetaCspNode_elem] at hn ⊢
      have h1 : isCspMeta tg a = false := by
        cases hm : isCspMeta tg a with
        | false => rfl
        | true => rw [hm] at hn; simp at hn
      have h2 : hasMetaCspList c = false := by
        cases hm : hasMetaCspList c with
        | false => rfl
        | true => rw [hm] at hn; simp at hn
      rw [h1, filterKeepNoCspList p c h2]
      rfl

theorem filterKeepNoCspList : ∀ (p : String → Attrs → Bool) (ns : List HNode),
    hasMetaCspList ns = false → hasMetaCspList (filterNodes p ns) = false
  | p, [], _ => by simp [filterNodes, hasMetaCspList]
  | p, n :: ns, hn => by
    rw [hasMetaCspList_cons] at hn
    have h1 : hasMetaCspNode n = false := by
      cases hm : hasMetaCspNode n with
      | false => rfl
      | true => rw [hm] at hn; simp at hn
    have h2 : hasMetaCspList ns = false := by
      cases hm : hasMetaCspList ns with
      | false => rfl
      | true => rw [hm] at hn; simp at hn
    simp only [filterNodes]
    cases hf : filterNode p n with
    | none => exact filterKeepNoCspList p ns h2
    | some n' =>
      rw [hasMetaCspList_cons, filterKeepNoCspNode p n n' h1 hf,
        filterKeepNoCspList p ns h2]
      rfl

end


theorem schemeChars_not_ws (c : Char) (h : schemeChars c = true) : isPyWs c = false := by
  cases hw : isPyWs c with
  | false => rfl
  | true =>
    exfalso
    simp only [isPyWs, decide_eq_true_eq] at hw
    rcases hw with h1 | h1 | h1 | h1 | h1 | h1 <;> subst h1 <;> simp [schemeChars] at h

theorem stripList_keep (pre t : List Char) (hne : pre ≠ [])
    (hws : ∀ c ∈ pre, isPyWs c = false) :
    ∃ t', stripList (pre ++ t) = pre ++ t' ∧ t' <+: t := by
  have h1 : (pre ++ t).dropWhile isPyWs = pre ++ t := by
    cases pre with
    | nil => exact absurd rfl hne
    | cons c cs =>
      rw [List.cons_append, List.dropWhile_cons,
        if_neg (by rw [hws c (List.mem_cons_self c cs)]; simp)]
  have hrev : pre.reverse.dropWhile isPyWs = pre.reverse := by
    cases hpr : pre.reverse with
    | nil => simp
    | cons d ds =>
      have hd : d ∈ pre := by
        have : d ∈ pre.reverse := by rw [hpr]; exact List.mem_cons_self d ds
        simpa using this
      rw [List.dropWhile_cons, if_neg (by rw [hws d hd]; simp)]
  unfold stripList
  rw [h1, List.reverse_append, List.dropWhile_append]
  by_cases hcase : (t.reverse.dropWhile isPyWs).isEmpty = true
  · refine ⟨[], ?_, List.nil_prefix⟩
    rw [if_pos hcase, hrev, List.reverse_reverse, List.append_nil]
  · refine ⟨(t.reverse.dropWhile isPyWs).reverse, ?_, ?_⟩
    · rw [if_neg hcase, List.reverse_append, List.reverse_reverse]
    · have hsuf : t.reverse.dropWhile isPyWs <:+ t.reverse := List.dropWhile_suffix _
      have := hsuf.reverse
      rwa [List.reverse_reverse] at this

theorem findIdxAux_append_colon (pre t : List Char)
    (hnc : ∀ c ∈ pre, ¬ c = ':') :
    findIdxAux (· = ':') (pre ++ ':' :: t) = some pre.length := by
  induction pre with
  | nil => simp [findIdxAux]
  | cons c cs ih =>
    have hc : ¬ c = ':' := hnc c (List.mem_cons_self c cs)
    rw [List.cons_append]
    simp [findIdxAux, hc, ih (fun x hx => hnc x (List.mem_cons_of_mem c hx))]

theorem splitScheme_concrete (c : Char) (cs t : List Char)
    (hsch : (c :: cs).all schemeChars = true) (halpha : c.isAlpha = true)
    (hnc : ∀ x ∈ c :: cs, ¬ x = ':') :
    splitScheme ⟨(c :: cs) ++ ':' :: t⟩ "" = (pyLower ⟨c :: cs⟩, ⟨t⟩) := by
  unfold splitScheme strFindChar
  rw [show (String.mk ((c :: cs) ++ ':' :: t)).data = (c :: cs) ++ ':' :: t from rfl,
    findIdxAux_append_colon _ _ hnc]
  simp only []
  rw [List.take_left]
  rw [if_pos (by simp [halpha, hsch])]
  congr 1
  rw [show (c :: cs) ++ ':' :: t = ((c :: cs) ++ [':']) ++ t by simp]
  rw [show (c :: cs).length + 1 = ((c :: cs) ++ [':']).length by simp]
  rw [List.drop_left]

theorem urlparseDef_netloc (s d : String) :
    (urlparseDef s d).netloc =
      (if pyStartsWith (splitScheme s d).2 "//"
       then (splitNetloc (splitScheme s d).2).1 else "") := by
  unfold urlparseDef
  repeat' split
  all_goals simp_all


mutual

theorem mapKeepCspNode : ∀ (f : String → Attrs → List HNode → Attrs)
    (_ : ∀ a ch, f "meta" a ch = a) (n : HNode),
    hasMetaCspNode (mapAttrsNode f n) = hasMetaCspNode n
  | f, hf, .text t => by simp [mapAttrsNode]
  | f, hf, .elem tg a c => by
    simp only [mapAttrsNode]
    rw [hasMetaCspNode_elem, hasMetaCspNode_elem, mapKeepCspList f hf c]
    by_cases ht : tg = "meta"
    · subst ht
      rw [hf]
    · have h1 : isCspMeta tg (f tg a c) = false := by
        simp [isCspMeta, ht]
      have h2 : isCspMeta tg a = false := by
        simp [isCspMeta, ht]
      rw [h1, h2]

theorem mapKeepCspList : ∀ (f : String → Attrs → List HNode → Attrs)
    (_ : ∀ a ch, f "meta" a ch = a) (ns : List HNode),
    hasMetaCspList (mapAttrsNodes f ns) = hasMetaCspList ns
  | f, hf, [] => by simp [mapAttrsNodes]
  | f, hf, n :: ns => by
    simp only [mapAttrsNodes]
    rw [hasMetaCspList_cons, hasMetaCspList_cons, mapKeepCspNode f hf n,
      mapKeepCspList f hf ns]

end

mutual

theorem appendKeepCspNode : ∀ (tag : String) (child : HNode)
    (_ : hasMetaCspNode child = false) (n : HNode),
    hasMetaCspNode (appendNode tag child n).1 = hasMetaCspNode n
  | tag, child, hc, .text t => by simp [appendNode]
  | tag, child, hc, .elem tg a c => by
    simp only [appendNode]
    by_cases ht : tg = tag
    · rw [if_pos ht]
      rw [hasMetaCspNode_elem, hasMetaCspNode_elem, hasMetaCspList_append]
      rw [show hasMetaCspList [child] = false by
        rw [hasMetaCspList_cons, hc]; rfl]
      rw [Bool.or_false]
    · rw [if_neg ht]
      rw [hasMetaCspNode_elem, hasMetaCspNode_elem,
        appendKeepCspList tag child hc c]

theorem appendKeepCspList : ∀ (tag : String) (child : HNode)
    (_ : hasMetaCspNode child = false) (ns : List HNode),
    hasMetaCspList (appendNodes tag child ns).1 = hasMetaCspList ns
  | tag, child, hc, [] => by simp [appendNodes, hasMetaCspList]
  | tag, child, hc, n :: ns => by
    simp only [appendNodes]
    by_cases hr : (appendNode tag child n).2 = true
    · rw [if_pos hr]
      rw [hasMetaCspList_cons, hasMetaCspList_cons, appendKeepCspNode tag child hc n]
    · rw [if_neg hr]
      rw [hasMetaCspList_cons, hasMetaCspList_cons, appendKeepCspList tag child hc ns]

end

theorem injectPass_keepCsp (inj : String) (doc : List HNode)
    (h : hasMetaCspList doc = false) :
    hasMetaCspList (injectPass inj doc) = false := by
  have hscript : hasMetaCspNode (HNode.elem "script" [] [HNode.text inj]) = false := by
    rw [hasMetaCspNode_elem]
    simp [isCspMeta, hasMetaCspList, hasMetaCspNode]
  unfold injectPass
  by_cases hb : (appendNodes "body" (HNode.elem "script" [] [HNode.text inj]) doc).2 = true
  · rw [if_pos hb, appendKeepCspList _ _ hscript, h]
  · rw [if_neg hb]
    by_cases hh : (appendNodes "head" (HNode.elem "script" [] [HNode.text inj]) doc).2 = true
    · rw [if_pos hh, appendKeepCspList _ _ hscript, h]
    · rw [if_neg hh, hasMetaCspList_append, h, hasMetaCspList_cons, hscript]
      rfl

theorem rewrite_links_no_csp (inj base : String) (doc : List HNode) :
    hasMetaCspList (rewrite_links inj base doc) = false := by
  unfold rewrite_links metaPass basePass anchorPass linkPass scriptPass imgPass
    sourcePass videoAudioPass formPass
  apply injectPass_keepCsp
  rw [mapKeepCspList _ (fun a ch => by simp)]
  rw [mapKeepCspList _ (fun a ch => by simp)]
  rw [mapKeepCspList _ (fun a ch => by simp)]
  rw [mapKeepCspList _ (fun a ch => by simp)]
  rw [mapKeepCspList _ (fun a ch => by simp)]
  rw [mapKeepCspList _ (fun a ch => by simp)]
  rw [mapKeepCspList _ (fun a ch => by simp)]
  apply filterKeepNoCspList
  exact hostileFilterList doc


theorem attrGet_attrSet_ne (attrs : Attrs) (k k' : String) (v : AttrVal)
    (h : k' ≠ k) : attrGet (attrSet attrs k v) k' = attrGet attrs k' := by
  induction attrs with
  | nil => simp [attrSet, attrGet, List.find?, Ne.symm h]
  | cons kv rest ih =>
    rcases kv with ⟨k0, v0⟩
    simp only [attrSet]
    by_cases h0 : k0 = k
    · rw [if_pos h0]
      subst h0
      simp [attrGet, List.find?, Ne.symm h]
    · rw [if_neg h0]
      by_cases h1 : k0 = k'
      · simp [attrGet, List.find?, h1]
      · simp only [attrGet, List.find?] at ih ⊢
        rw [show (decide (k0 = k')) = false by simp [h1]]
        exact ih

theorem anchorAttrs_skip (base : String) (attrs : Attrs) (children : List HNode)
    (h : pyStrip ((attrGetStr attrs "href").getD "") = ""
      ∨ pyStartsWith (pyStrip ((attrGetStr attrs "href").getD "")) "#" = true) :
    anchorAttrs base attrs children = attrs := by
  unfold anchorAttrs
  cases hg : attrGet attrs "href" with
  | none => rfl
  | some hv =>
    have hs : (attrGetStr attrs "href").getD "" = attrValStr hv := by
      simp [attrGetStr, hg]
    rw [hs] at h
    simp only []
    rw [if_pos]
    rcases h with h | h
    · exact Or.inl h
    · exact Or.inr h

theorem rewrite_attr_skip (base : String) (attrs : Attrs) (attr : String)
    (h : pyStartsWith (pyStrip ((attrGetStr attrs attr).getD "")) "#" = true
      ∨ pyStartsWith (pyStrip ((attrGetStr attrs attr).getD "")) "data:" = true
      ∨ pyStartsWith (pyStrip ((attrGetStr attrs attr).getD "")) "javascript:" = true) :
    rewrite_attr base attrs attr = attrs := by
  unfold rewrite_attr
  cases hg : attrGetStr attrs attr with
  | none => rfl
  | some val =>
    rw [hg] at h
    simp only [Option.getD_some] at h
    by_cases hv : val = ""
    · simp [hv]
    · simp only [hv, if_false]
      rw [if_pos]
      rcases h with h | h | h
      · exact Or.inl h
      · exact Or.inr (Or.inl h)
      · exact Or.inr (Or.inr h)


theorem pyStartsWith_iff (s pre : String) :
    pyStartsWith s pre = true ↔ pre.data <+: s.data := by
  simp [pyStartsWith, List.isPrefixOf_iff_prefix]

theorem prefix_head_eq {a b : Char} {as bs : List Char}
    (h : (a :: as) <+: (b :: bs)) : a = b := by
  obtain ⟨r, hr⟩ := h
  injection hr

theorem stripString_keep (u : String) (pre t : List Char)
    (hd : u.data = pre ++ t) (hne : pre ≠ [])
    (hws : ∀ c ∈ pre, isPyWs c = false) :
    ∃ t', (pyStrip u).data = pre ++ t' ∧ t' <+: t := by
  have : (pyStrip u).data = stripList u.data := rfl
  rw [this, hd]
  exact stripList_keep pre t hne hws

theorem normalize_static_url_scheme_none (u : String) (c : Char) (cs : List Char)
    (hsch : (c :: cs).all schemeChars = true) (halpha : c.isAlpha = true)
    (hnc : ∀ x ∈ c :: cs, ¬ x = ':')
    (hcslash : ¬ c = '/')
    (hpre : ((c :: cs) ++ [':']) <+: u.data)
    (hpre2 : ¬ ((c :: cs) ++ [':', '/', '/']) <+: u.data) :
    normalize_static_url (some u) = none := by
  obtain ⟨t, ht⟩ : ∃ t, u.data = (c :: cs) ++ ':' :: t := by
    obtain ⟨t, ht⟩ := hpre
    exact ⟨t, by rw [← ht]; simp⟩
  have hws : ∀ x ∈ (c :: cs) ++ [':'], isPyWs x = false := by
    intro x hx
    rcases List.mem_append.mp hx with hx | hx
    · exact schemeChars_not_ws x (List.all_eq_true.mp hsch x hx)
    · simp only [List.mem_singleton] at hx
      subst hx
      decide
  obtain ⟨t2, ht2, htp⟩ := stripString_keep u ((c :: cs) ++ [':']) t
    (by rw [ht]; simp) (by simp) hws
  have hvdata : (pyStrip u).data = (c :: cs) ++ ':' :: t2 := by
    rw [ht2]; simp
  have hune : u ≠ "" := by
    intro he
    subst he
    simp at ht
  have hstat : pyStartsWith (pyStrip u) "/static/" = false := by
    cases hb : pyStartsWith (pyStrip u) "/static/" with
    | false => rfl
    | true =>
      exfalso
      have hb' := (pyStartsWith_iff _ _).mp hb
      rw [hvdata] at hb'
      rw [show "/static/".data = '/' :: "static/".data from rfl] at hb'
      rw [show (c :: cs) ++ ':' :: t2 = c :: (cs ++ ':' :: t2) by simp] at hb'
      exact hcslash (prefix_head_eq hb').symm
  have hss : pyStartsWith (pyStrip u) "//" = false := by
    cases hb : pyStartsWith (pyStrip u) "//" with
    | false => rfl
    | true =>
      exfalso
      have hb' := (pyStartsWith_iff _ _).mp hb
      rw [hvdata] at hb'
      rw [show "//".data = '/' :: "/".data from rfl] at hb'
      rw [show (c :: cs) ++ ':' :: t2 = c :: (cs ++ ':' :: t2) by simp] at hb'
      exact hcslash (prefix_head_eq hb').symm
  have hvstr : pyStrip u = (⟨(c :: cs) ++ ':' :: t2⟩ : String) := by
    cases hv : pyStrip u with
    | mk d => rw [hv] at hvdata; exact congrArg String.mk hvdata
  have hnet : (urlparse (pyStrip u)).netloc = "" := by
    unfold urlparse
    rw [urlparseDef_netloc, hvstr, splitScheme_concrete c cs t2 hsch halpha hnc]
    have hps2 : pyStartsWith (⟨t2⟩ : String) "//" = false := by
      cases hb : pyStartsWith (⟨t2⟩ : String) "//" with
      | false => rfl
      | true =>
        exfalso
        have hb' := (pyStartsWith_iff _ _).mp hb
        have hsub : ("//".data : List Char) <+: t := hb'.trans htp
        apply hpre2
        rw [ht, show (c :: cs) ++ [':', '/', '/'] = ((c :: cs) ++ [':']) ++ "//".data by simp,
          show (c :: cs) ++ ':' :: t = ((c :: cs) ++ [':']) ++ t by simp]
        exact (List.prefix_append_right_inj _).mpr hsub
    rw [hps2]
    rfl
  unfold normalize_static_url
  dsimp only
  rw [if_neg hune]
  simp only [hstat, hss, Bool.false_eq_true, if_false]
  rw [if_neg]
  intro hcond
  rcases hcond with ⟨hor, _⟩
  rw [hnet] at hor
  rcases hor with h | h <;> simp [pyLower] at h


theorem normalizeSrcsetPart_keep (p u : String) (ds : List String)
    (hsplit : pySplitWs p = u :: ds)
    (hnone : normalize_static_url (some u) = none) :
    normalizeSrcsetPart p = some (String.intercalate " " (u :: ds)) := by
  unfold normalizeSrcsetPart
  rw [hsplit]
  simp [hnone]

theorem imgAttrs_src_keep (attrs : Attrs)
    (hnone : normalize_static_url (attrGetStr attrs "src") = none) :
    attrGetStr (imgAttrs attrs) "src" = attrGetStr attrs "src" := by
  simp only [imgAttrs, hnone]
  simp only [show truthy (none : Option String) = false from rfl, Bool.false_eq_true,
    if_false]
  by_cases hs : truthy (attrGetStr attrs "srcset") = true
  · rw [if_pos hs]
    unfold attrGetStr
    rw [attrGet_attrSet_ne _ _ _ _ (by decide)]
  · rw [if_neg hs]

theorem normalize_static_none_data_or_js (u : String)
    (h : pyStartsWith u "data:" = true ∨ pyStartsWith u "javascript:" = true)
    (h2 : pyStartsWith u "data://" = false)
    (h3 : pyStartsWith u "javascript://" = false) :
    normalize_static_url (some u) = none := by
  rcases h with hd | hj
  · refine normalize_static_url_scheme_none u 'd' ['a', 't', 'a']
      (by decide) (by decide) (by decide) (by decide) ?_ ?_
    · have := (pyStartsWith_iff u "data:").mp hd
      rwa [show ("data:".data : List Char) = ('d' :: ['a', 't', 'a']) ++ [':'] by decide] at this
    · intro hcon
      rw [show (('d' :: ['a', 't', 'a']) ++ [':', '/', '/'] : List Char) = "data://".data
        by decide] at hcon
      rw [(pyStartsWith_iff u "data://").mpr hcon] at h2
      exact Bool.true_eq_false.mp h2
  · refine normalize_static_url_scheme_none u 'j' ['a', 'v', 'a', 's', 'c', 'r', 'i', 'p', 't']
      (by decide) (by decide) (by decide) (by decide) ?_ ?_
    · have := (pyStartsWith_iff u "javascript:").mp hj
      rwa [show ("javascript:".data : List Char)
        = ('j' :: ['a', 'v', 'a', 's', 'c', 'r', 'i', 'p', 't']) ++ [':'] by decide] at this
    · intro hcon
      rw [show (('j' :: ['a', 'v', 'a', 's', 'c', 'r', 'i', 'p', 't']) ++ [':', '/', '/'] : List Char)
        = "javascript://".data by decide] at hcon
      rw [(pyStartsWith_iff u "javascript://").mpr hcon] at h3
      exact Bool.true_eq_false.mp h3

theorem C8_rewriter_amended :
    (∀ (base : String) (attrs : Attrs) (children : List HNode),
        (pyStrip ((attrGetStr attrs "href").getD "") = ""
          ∨ pyStartsWith (pyStrip ((attrGetStr attrs "href").getD "")) "#" = true) →
        anchorAttrs base attrs children = attrs)
    ∧ (∀ (base : String) (attrs : Attrs) (attr : String),
        (pyStartsWith (pyStrip ((attrGetStr attrs attr).getD "")) "data:" = true
          ∨ pyStartsWith (pyStrip ((attrGetStr attrs attr).getD "")) "javascript:" = true) →
        rewrite_attr base attrs attr = attrs)
    ∧ (∀ u : String,
        (pyStartsWith u "data:" = true ∨ pyStartsWith u "javascript:" = true) →
        pyStartsWith u "data://" = false →
        pyStartsWith u "javascript://" = false →
        normalize_static_url (some u) = none
        ∧ (∀ (p : String) (ds : List String), pySplitWs p = u :: ds →
            normalizeSrcsetPart p = some (String.intercalate " " (u :: ds)))
        ∧ (∀ attrs : Attrs, attrGetStr attrs "src" = some u →
            attrGetStr (imgAttrs attrs) "src" = some u))
    ∧ (∀ (injectText base : String) (doc : List HNode),
        hasMetaCspList (rewrite_links injectText base doc) = false) := by
  refine ⟨anchorAttrs_skip, ?_, ?_, rewrite_links_no_csp⟩
  · intro base attrs attr h
    exact rewrite_attr_skip base attrs attr (Or.inr h)
  · intro u h h2 h3
    have hnone := normalize_static_none_data_or_js u h h2 h3
    refine ⟨hnone, fun p ds hs => normalizeSrcsetPart_keep p u ds hs hnone, ?_⟩
    intro attrs ha
    rw [imgAttrs_src_keep attrs (by rw [ha]; exact hnone), ha]

theorem C8_rewriter_amended_witness :
    anchorAttrs "https://en.m.wikipedia.org/wiki/Cat"
        [("href", AttrVal.s "#top")] [] = [("href", AttrVal.s "#top")]
    ∧ rewrite_attr "https://en.m.wikipedia.org/wiki/Cat"
        [("href", AttrVal.s "data:text/css,a")] "href"
      = [("href", AttrVal.s "data:text/css,a")]
    ∧ normalize_static_url (some "javascript:void(0)") = none
    ∧ normalizeSrcsetPart "javascript:void(0) 2x" = some "javascript:void(0) 2x"
    ∧ hasMetaCspList (rewrite_links "" "https://en.m.wikipedia.org/wiki/Cat"
        [.elem "head" [] [.elem "meta" [("http-equiv", .s "Content-Security-Policy")] []]])
      = false :=
  ⟨C8_rewriter_amended.1 _ _ _ (by decide),
   C8_rewriter_amended.2.1 _ _ _ (by decide),
   (C8_rewriter_amended.2.2.1 "javascript:void(0)" (by decide) (by decide) (by decide)).1,
   by
     have h := (C8_rewriter_amended.2.2.1 "javascript:void(0)"
       (by decide) (by decide) (by decide)).2.1 "javascript:void(0) 2x" ["2x"] (by decide)
     simpa using h,
   C8_rewriter_amended.2.2.2 "" "https://en.m.wikipedia.org/wiki/Cat" _⟩

theorem C8_rewriter_counterexample :
    firstHref (rewrite_links "" "https://en.m.wikipedia.org/wiki/Cat" docAnchorJs)
      = some "/m?url=javascript%3Avoid%280%29"
    ∧ firstHref docAnchorJs = some "javascript:void(0)" := by
  constructor <;> decide



theorem strOr_empty (a : Option String) : strOr a "" = a.getD "" := by
  cases a with
  | none => rfl
  | some s =>
    by_cases hs : s = ""
    · subst hs; rfl
    · simp [strOr, truthy, hs]

theorem pyOrInt_some (st b : Int) (h : st ≠ 0) : pyOrInt (some st) b = st := by
  simp [pyOrInt, h]

theorem parse_iso8601_some_truthy (o : Option String) (d : PyDateTime)
    (h : parse_iso8601 o = some d) : truthy o = true := by
  cases o with
  | none => simp [parse_iso8601] at h
  | some s =>
    by_cases hs : s = ""
    · subst hs; simp [parse_iso8601] at h
    · simp [truthy, hs]

theorem freshHitCheck_stale (e : CacheEntry) (now nr : PyDateTime) (z zn : Int)
    (hb : truthy e.body = true)
    (hp : parse_iso8601 e.next_refresh_at = some nr)
    (hz : nr.tz = some z) (hzn : now.tz = some zn)
    (hle : dtInstant nr ≤ dtInstant now) :
    freshHitCheck e now = .ok false := by
  unfold freshHitCheck
  rw [if_pos ⟨hb, parse_iso8601_some_truthy _ _ hp⟩, hp]
  dsimp only
  unfold pyDtLt
  rw [hz, hzn]
  dsimp only
  rw [decide_eq_false (not_lt.mpr hle)]

theorem freshHitCheck_unparseable (e : CacheEntry) (now : PyDateTime)
    (hp : parse_iso8601 e.next_refresh_at = none) :
    freshHitCheck e now = .ok false := by
  unfold freshHitCheck
  by_cases hc : truthy e.body = true ∧ truthy e.next_refresh_at = true
  · rw [if_pos hc, hp]
  · rw [if_neg hc]

theorem freshHitCheck_no_body (e : CacheEntry) (now : PyDateTime)
    (hb : truthy e.body = false) :
    freshHitCheck e now = .ok false := by
  unfold freshHitCheck
  rw [if_neg]
  intro hc
  rw [hb] at hc
  exact Bool.false_ne_true hc.1

theorem mobile_entry_branch (env : MobileEnv) (e : CacheEntry)
    (hs : (urlparse (resolveTarget env.host env.urlArg env.pathArg)).scheme = "http"
      ∨ (urlparse (resolveTarget env.host env.urlArg env.pathArg)).scheme = "https")
    (ha : is_allowed_wikimedia_host
      (urlparse (resolveTarget env.host env.urlArg env.pathArg)).netloc = true)
    (hc : env.cacheEnabled = true)
    (hcc : is_cacheable_html_target
      (urlparse (resolveTarget env.host env.urlArg env.pathArg)) = true)
    (he : env.storeEntry = some e) :
    mobile env =
      (let target := resolveTarget env.host env.urlArg env.pathArg
       let lang_key := lang_key_from_accept_language env.acceptLanguage
       let canonical_target := canonicalize_url_for_cache target
       let uh := upstreamHeaders env.acceptHeader env.acceptLanguage
       let ck := compute_cache_key canonical_target lang_key
       match freshHitCheck e env.now with
       | .error _ => .error ()
       | .ok true =>
         .ok ⟨html_response (strOr e.body "") (pyOrInt e.status 200) (some "HIT"),
           none, none⟩
       | .ok false =>
         if truthy e.body then
           .ok (staleRevalidate env target canonical_target lang_key ck uh e)
         else
           .ok (missFetch env target canonical_target lang_key true (some ck) uh)) := by
  unfold mobile
  rw [if_neg (by simp [hs]), if_neg (by simp [ha])]
  simp only [hc, hcc, Bool.and_self, if_pos, Option.isSome_some, he]
  rfl


theorem strOr_truthy (a : Option String) (b : String) (h : truthy a = true) :
    strOr a b = a.getD "" := by
  simp [strOr, h]

theorem staleRevalidate_sent (env : MobileEnv) (target ct lk ck : String)
    (uh : List (String × String)) (e : CacheEntry) :
    (staleRevalidate env target ct lk ck uh e).sent = some (conditionalHeaders uh e) := by
  unfold staleRevalidate
  dsimp only
  cases hf : env.fetch (conditionalHeaders uh e) with
  | error msg => rfl
  | ok resp =>
    dsimp only
    repeat' split
    all_goals rfl

theorem staleRevalidate_not_hit (env : MobileEnv) (target ct lk ck : String)
    (uh : List (String × String)) (e : CacheEntry) :
    ciGet (staleRevalidate env target ct lk ck uh e).resp.headers "X-WikiPro-Cache"
      ≠ some "HIT" := by
  unfold staleRevalidate
  dsimp only
  cases hf : env.fetch (conditionalHeaders uh e) with
  | error msg => simp [html_response, ciGet, pyLower, asciiLowerChar]
  | ok resp =>
    dsimp only
    repeat' split
    all_goals simp [html_response, ciGet, pyLower, asciiLowerChar]

theorem missFetch_sent (env : MobileEnv) (target ct lk : String)
    (wc : Bool) (cko : Option String) (uh : List (String × String)) :
    (missFetch env target ct lk wc cko uh).sent = some uh := by
  unfold missFetch
  dsimp only
  cases hf : env.fetch uh with
  | error msg => rfl
  | ok resp =>
    dsimp only
    repeat' split
    all_goals rfl

theorem missFetch_not_hit (env : MobileEnv) (target ct lk : String)
    (wc : Bool) (cko : Option String) (uh : List (String × String)) :
    ciGet (missFetch env target ct lk wc cko uh).resp.headers "X-WikiPro-Cache"
      ≠ some "HIT" := by
  unfold missFetch
  dsimp only
  cases hf : env.fetch uh with
  | error msg => simp [ciGet]
  | ok resp =>
    dsimp only
    repeat' split
    all_goals cases wc <;> simp [html_response, ciGet, pyLower, asciiLowerChar]

theorem missFetch_502 (env : MobileEnv) (target ct lk : String)
    (wc : Bool) (cko : Option String) (uh : List (String × String)) (msg : String)
    (hf : env.fetch uh = .error msg) :
    missFetch env target ct lk wc cko uh
      = ⟨⟨"Upstream fetch error: " ++ msg, 502, []⟩, none, some uh⟩ := by
  unfold missFetch
  dsimp only
  rw [hf]

/-- C4: for a stale cached entry (truthy body, parseable aware
`next_refresh_at` at or before now), a network failure of the conditional
upstream GET yields the cached body with the stored status and header
`X-WikiPro-Cache: STALE`, no upsert is performed, and the request that was
attempted carried the conditional headers. -/
theorem C4_stale_upstream_error_serves_stale :
    ∀ (env : MobileEnv) (e : CacheEntry) (nr : PyDateTime) (z zn st : Int) (msg : String),
      ((urlparse (resolveTarget env.host env.urlArg env.pathArg)).scheme = "http"
        ∨ (urlparse (resolveTarget env.host env.urlArg env.pathArg)).scheme = "https") →
      is_allowed_wikimedia_host
        (urlparse (resolveTarget env.host env.urlArg env.pathArg)).netloc = true →
      env.cacheEnabled = true →
      is_cacheable_html_target (urlparse (resolveTarget env.host env.urlArg env.pathArg)) = true →
      env.storeEntry = some e →
      truthy e.body = true →
      e.status = some st → st ≠ 0 →
      parse_iso8601 e.next_refresh_at = some nr →
      nr.tz = some z → env.now.tz = some zn →
      dtInstant nr ≤ dtInstant env.now →
      env.fetch (conditionalHeaders (upstreamHeaders env.acceptHeader env.acceptLanguage) e)
        = .error msg →
      mobile env = .ok ⟨html_response (e.body.getD "") st (some "STALE"), none,
        some (conditionalHeaders (upstreamHeaders env.acceptHeader env.acceptLanguage) e)⟩ := by
  intro env e nr z zn st msg hs ha hc hcc he hb hst hst0 hp hz hzn hle hf
  rw [mobile_entry_branch env e hs ha hc hcc he]
  dsimp only
  rw [freshHitCheck_stale e env.now nr z zn hb hp hz hzn hle]
  dsimp only
  rw [if_pos hb]
  unfold staleRevalidate
  dsimp only
  rw [hf, strOr_empty, hst, pyOrInt_some st 200 hst0]


/-- C5: on a stale entry, upstream 304 upserts a row keeping body,
body_sha256 and last_changed_at, refreshing etag/last_modified from the
response with fallback to the stored values, stamping last_checked_at
with now, and recomputing the TTL with can_grow iff the stored status is
200; the response is the cached body with REVALIDATED. -/
theorem C5_revalidate_304_upsert :
    ∀ (env : MobileEnv) (e : CacheEntry) (nr : PyDateTime) (z zn st : Int)
      (resp : UpstreamResp),
      ((urlparse (resolveTarget env.host env.urlArg env.pathArg)).scheme = "http"
        ∨ (urlparse (resolveTarget env.host env.urlArg env.pathArg)).scheme = "https") →
      is_allowed_wikimedia_host
        (urlparse (resolveTarget env.host env.urlArg env.pathArg)).netloc = true →
      env.cacheEnabled = true →
      is_cacheable_html_target (urlparse (resolveTarget env.host env.urlArg env.pathArg)) = true →
      env.storeEntry = some e →
      truthy e.body = true →
      truthy e.body_sha256 = true →
      truthy e.last_changed_at = true →
      e.status = some st → st ≠ 0 →
      parse_iso8601 e.next_refresh_at = some nr →
      nr.tz = some z → env.now.tz = some zn →
      dtInstant nr ≤ dtInstant env.now →
      env.fetch (conditionalHeaders (upstreamHeaders env.acceptHeader env.acceptLanguage) e)
        = .ok resp →
      resp.status_code = 304 →
      mobile env = .ok ⟨
        html_response (e.body.getD "") st (some "REVALIDATED"),
        some {
          cache_key := compute_cache_key
            (canonicalize_url_for_cache (resolveTarget env.host env.urlArg env.pathArg))
            (lang_key_from_accept_language env.acceptLanguage),
          url := canonicalize_url_for_cache (resolveTarget env.host env.urlArg env.pathArg),
          lang_key := lang_key_from_accept_language env.acceptLanguage,
          rewrite_version := CACHE_REWRITE_VERSION,
          status := st,
          content_type := strOr e.content_type "text/html; charset=utf-8",
          body := e.body.getD "",
          body_sha256 := e.body_sha256.getD "",
          etag := pyOrStr (ciGet resp.headers "ETag") e.etag,
          last_modified := pyOrStr (ciGet resp.headers "Last-Modified") e.last_modified,
          ttl_seconds := next_ttl_seconds e.ttl_seconds (decide (st = 200)),
          next_refresh_at := to_iso8601_z (addSeconds env.now
            (next_ttl_seconds e.ttl_seconds (decide (st = 200)))),
          fetched_at := strOr e.fetched_at (to_iso8601_z env.now),
          last_checked_at := to_iso8601_z env.now,
          last_changed_at := some (e.last_changed_at.getD "") },
        some (conditionalHeaders (upstreamHeaders env.acceptHeader env.acceptLanguage) e)⟩ := by
  intro env e nr z zn st resp hs ha hc hcc he hb hbs hlc hst hst0 hp hz hzn hle hf h304
  rw [mobile_entry_branch env e hs ha hc hcc he]
  dsimp only
  rw [freshHitCheck_stale e env.now nr z zn hb hp hz hzn hle]
  dsimp only
  rw [if_pos hb]
  unfold staleRevalidate
  dsimp only
  rw [hf]
  dsimp only
  rw [if_pos h304, hst, pyOrInt_some st 200 hst0, strOr_empty,
    strOr_truthy e.body_sha256 _ hbs, strOr_truthy e.last_changed_at _ hlc]

/-- C9: an entry whose next_refresh_at is absent, empty or unparseable
never produces a fresh HIT; when the entry has a truthy body the request
proceeds to conditional revalidation (the upstream GET carries the
conditional headers built from the entry). -/
theorem C9_unparseable_next_refresh_no_hit :
    ∀ (env : MobileEnv) (e : CacheEntry),
      ((urlparse (resolveTarget env.host env.urlArg env.pathArg)).scheme = "http"
        ∨ (urlparse (resolveTarget env.host env.urlArg env.pathArg)).scheme = "https") →
      is_allowed_wikimedia_host
        (urlparse (resolveTarget env.host env.urlArg env.pathArg)).netloc = true →
      env.cacheEnabled = true →
      is_cacheable_html_target (urlparse (resolveTarget env.host env.urlArg env.pathArg)) = true →
      env.storeEntry = some e →
      parse_iso8601 e.next_refresh_at = none →
      ∃ out, mobile env = .ok out
        ∧ ciGet out.resp.headers "X-WikiPro-Cache" ≠ some "HIT"
        ∧ (truthy e.body = true →
            out.sent = some (conditionalHeaders
              (upstreamHeaders env.acceptHeader env.acceptLanguage) e)) := by
  intro env e hs ha hc hcc he hp
  rw [mobile_entry_branch env e hs ha hc hcc he]
  dsimp only
  rw [freshHitCheck_unparseable e env.now hp]
  dsimp only
  by_cases hb : truthy e.body = true
  · rw [if_pos hb]
    refine ⟨_, rfl, staleRevalidate_not_hit _ _ _ _ _ _ _, fun _ => ?_⟩
    exact staleRevalidate_sent _ _ _ _ _ _ _
  · rw [if_neg hb]
    refine ⟨_, rfl, missFetch_not_hit _ _ _ _ _ _ _, fun hb' => absurd hb' hb⟩

/-- C10: an entry with an absent or empty body is handled as a miss: the
upstream GET carries the plain browser headers (no If-None-Match or
If-Modified-Since), and a network failure yields a 502 with no cache-state
header rather than a STALE cached response. -/
theorem C10_empty_body_handled_as_miss :
    ∀ (env : MobileEnv) (e : CacheEntry),
      ((urlparse (resolveTarget env.host env.urlArg env.pathArg)).scheme = "http"
        ∨ (urlparse (resolveTarget env.host env.urlArg env.pathArg)).scheme = "https") →
      is_allowed_wikimedia_host
        (urlparse (resolveTarget env.host env.urlArg env.pathArg)).netloc = true →
      env.cacheEnabled = true →
      is_cacheable_html_target (urlparse (resolveTarget env.host env.urlArg env.pathArg)) = true →
      env.storeEntry = some e →
      truthy e.body = false →
      ∃ out, mobile env = .ok out
        ∧ out.sent = some (upstreamHeaders env.acceptHeader env.acceptLanguage)
        ∧ ciGet (upstreamHeaders env.acceptHeader env.acceptLanguage) "If-None-Match" = none
        ∧ ciGet (upstreamHeaders env.acceptHeader env.acceptLanguage) "If-Modified-Since" = none
        ∧ (∀ msg, env.fetch (upstreamHeaders env.acceptHeader env.acceptLanguage)
              = .error msg →
            out.resp.status = 502 ∧ ciGet out.resp.headers "X-WikiPro-Cache" = none) := by
  intro env e hs ha hc hcc he hb
  rw [mobile_entry_branch env e hs ha hc hcc he]
  dsimp only
  rw [freshHitCheck_no_body e env.now hb]
  dsimp only
  rw [if_neg (by rw [hb]; exact Bool.false_ne_true)]
  refine ⟨_, rfl, missFetch_sent _ _ _ _ _ _ _, rfl, rfl, fun msg hf => ?_⟩
  rw [missFetch_502 _ _ _ _ _ _ _ msg hf]
  exact ⟨rfl, rfl⟩


theorem staleRevalidate_hash (env : MobileEnv) (target ct lk ck : String)
    (uh : List (String × String)) (e : CacheEntry) (row : CacheRow)
    (hinv : truthy e.body_sha256 = true → e.body_sha256 = some (sha256_hex (e.body.getD "")))
    (hu : (staleRevalidate env target ct lk ck uh e).upsert = some row) :
    row.body_sha256 = sha256_hex row.body := by
  unfold staleRevalidate at hu
  dsimp only at hu
  cases hf : env.fetch (conditionalHeaders uh e) with
  | error msg =>
    rw [hf] at hu
    simp at hu
  | ok resp =>
    rw [hf] at hu
    dsimp only at hu
    by_cases h304 : resp.status_code = 304
    · rw [if_pos h304] at hu
      simp only [Option.some.injEq] at hu
      subst hu
      dsimp only
      by_cases hbs : truthy e.body_sha256 = true
      · rw [strOr_truthy e.body_sha256 _ hbs, hinv hbs]
        rw [strOr_empty]
        rfl
      · rw [show strOr e.body_sha256 (sha256_hex (strOr e.body "")) = sha256_hex (strOr e.body "") by
          simp [strOr, hbs]]
    · rw [if_neg h304] at hu
      by_cases hhtml : strContains ((ciGet resp.headers "Content-Type").getD "") "text/html" = true
      · rw [if_neg (by simp [hhtml])] at hu
        simp only [Option.some.injEq] at hu
        subst hu
        rfl
      · rw [if_pos (by simp [hhtml])] at hu
        simp at hu

theorem missFetch_hash (env : MobileEnv) (target ct lk : String)
    (wc : Bool) (cko : Option String) (uh : List (String × String)) (row : CacheRow)
    (hu : (missFetch env target ct lk wc cko uh).upsert = some row) :
    row.body_sha256 = sha256_hex row.body := by
  unfold missFetch at hu
  dsimp only at hu
  cases hf : env.fetch uh with
  | error msg =>
    rw [hf] at hu
    simp at hu
  | ok resp =>
    rw [hf] at hu
    dsimp only at hu
    by_cases hhtml : strContains ((ciGet resp.headers "Content-Type").getD "") "text/html" = true
    · rw [if_neg (by simp [hhtml])] at hu
      by_cases hwc : (wc ∧ cko.isSome)
      · rw [if_pos hwc] at hu
        simp only [Option.some.injEq] at hu
        subst hu
        rfl
      · rw [if_neg hwc] at hu
        simp at hu
    · rw [if_pos (by simp [hhtml])] at hu
      simp at hu

set_option maxHeartbeats 2000000 in
/-- C7: every row the `mobile` endpoint upserts (the 304-revalidation
upsert, the 200-revalidation upsert, and the miss upsert) satisfies
`body_sha256 = SHA-256(body)`, provided any pre-existing entry with a
truthy stored hash already satisfied the invariant. -/
theorem C7_body_hash_invariant :
    ∀ (env : MobileEnv) (out : MobileOut) (row : CacheRow),
      (∀ e, env.storeEntry = some e → truthy e.body_sha256 = true →
        e.body_sha256 = some (sha256_hex (e.body.getD ""))) →
      mobile env = Except.ok out → out.upsert = some row →
      row.body_sha256 = sha256_hex row.body := by
  intro env out row hinv hm hu
  unfold mobile at hm
  by_cases hs : ((urlparse (resolveTarget env.host env.urlArg env.pathArg)).scheme = "http"
      ∨ (urlparse (resolveTarget env.host env.urlArg env.pathArg)).scheme = "https")
  · rw [if_neg (by simp [hs])] at hm
    by_cases ha : is_allowed_wikimedia_host
        (urlparse (resolveTarget env.host env.urlArg env.pathArg)).netloc = true
    · rw [if_neg (by simp [ha])] at hm
      dsimp only at hm
      set entry := (if (env.cacheEnabled && is_cacheable_html_target
          (urlparse (resolveTarget env.host env.urlArg env.pathArg))) = true
          ∧ (if (env.cacheEnabled && is_cacheable_html_target
              (urlparse (resolveTarget env.host env.urlArg env.pathArg))) = true
             then some (compute_cache_key
               (canonicalize_url_for_cache (resolveTarget env.host env.urlArg env.pathArg))
               (lang_key_from_accept_language env.acceptLanguage))
             else none).isSome
        then env.storeEntry else none) with hentry
      cases hent : entry with
      | none =>
        rw [hent] at hm
        dsimp only at hm
        injection hm with hm
        rw [← hm] at hu
        exact missFetch_hash _ _ _ _ _ _ _ row hu
      | some e =>
        have hee : env.storeEntry = some e := by
          rw [hentry] at hent
          by_cases hcond : ((env.cacheEnabled && is_cacheable_html_target
              (urlparse (resolveTarget env.host env.urlArg env.pathArg))) = true
              ∧ (if (env.cacheEnabled && is_cacheable_html_target
                  (urlparse (resolveTarget env.host env.urlArg env.pathArg))) = true
                 then some (compute_cache_key
                   (canonicalize_url_for_cache (resolveTarget env.host env.urlArg env.pathArg))
                   (lang_key_from_accept_language env.acceptLanguage))
                 else none).isSome)
          · rwa [if_pos hcond] at hent
          · rw [if_neg hcond] at hent
            exact absurd hent (by simp)
        rw [hent] at hm
        dsimp only at hm
        cases hfc : freshHitCheck e env.now with
        | error u =>
          rw [hfc] at hm
          exact absurd hm (by simp)
        | ok b =>
          rw [hfc] at hm
          cases b with
          | true =>
            injection hm with hm
            rw [← hm] at hu
            simp at hu
          | false =>
            by_cases hb : truthy e.body = true
            · rw [if_pos hb] at hm
              injection hm with hm
              rw [← hm] at hu
              exact staleRevalidate_hash _ _ _ _ _ _ _ row (hinv e hee) hu
            · rw [if_neg hb] at hm
              injection hm with hm
              rw [← hm] at hu
              exact missFetch_hash _ _ _ _ _ _ _ row hu
    · rw [if_pos (by simp [ha])] at hm
      injection hm with hm
      rw [← hm] at hu
      simp at hu
  · rw [if_pos (by simp [hs])] at hm
    injection hm with hm
    rw [← hm] at hu
    simp at hu


/-- Witness instantiating `C4_stale_upstream_error_serves_stale` at the
concrete stale environment. -/
theorem C4_stale_upstream_error_serves_stale_witness :
    mobile baseEnv = Except.ok
      ⟨html_response (staleEntry.body.getD "") 200 (some "STALE"), none,
        some (conditionalHeaders
          (upstreamHeaders baseEnv.acceptHeader baseEnv.acceptLanguage) staleEntry)⟩ :=
  C4_stale_upstream_error_serves_stale baseEnv staleEntry ⟨2026, 1, 1, 0, 0, 0, 0, some 0⟩
    0 0 200 "boom" (by decide) (by decide) rfl (by decide) rfl (by decide) rfl
    (by decide) (by decide) rfl rfl (by decide) rfl

/-- Witness instantiating `C5_revalidate_304_upsert` at the concrete
304-revalidation environment. -/
theorem C5_revalidate_304_upsert_witness :
    mobile rv304Env = Except.ok
      ⟨html_response (staleEntry.body.getD "") 200 (some "REVALIDATED"),
        some {
          cache_key := compute_cache_key
            (canonicalize_url_for_cache
              (resolveTarget rv304Env.host rv304Env.urlArg rv304Env.pathArg))
            (lang_key_from_accept_language rv304Env.acceptLanguage),
          url := canonicalize_url_for_cache
            (resolveTarget rv304Env.host rv304Env.urlArg rv304Env.pathArg),
          lang_key := lang_key_from_accept_language rv304Env.acceptLanguage,
          rewrite_version := CACHE_REWRITE_VERSION,
          status := 200,
          content_type := strOr staleEntry.content_type "text/html; charset=utf-8",
          body := staleEntry.body.getD "",
          body_sha256 := staleEntry.body_sha256.getD "",
          etag := pyOrStr (ciGet [("ETag", "xyz")] "ETag") staleEntry.etag,
          last_modified := pyOrStr (ciGet [("ETag", "xyz")] "Last-Modified")
            staleEntry.last_modified,
          ttl_seconds := next_ttl_seconds staleEntry.ttl_seconds (decide ((200 : Int) = 200)),
          next_refresh_at := to_iso8601_z (addSeconds rv304Env.now
            (next_ttl_seconds staleEntry.ttl_seconds (decide ((200 : Int) = 200)))),
          fetched_at := strOr staleEntry.fetched_at (to_iso8601_z rv304Env.now),
          last_checked_at := to_iso8601_z rv304Env.now,
          last_changed_at := some (staleEntry.last_changed_at.getD "") },
        some (conditionalHeaders
          (upstreamHeaders rv304Env.acceptHeader rv304Env.acceptLanguage) staleEntry)⟩ :=
  C5_revalidate_304_upsert rv304Env staleEntry ⟨2026, 1, 1, 0, 0, 0, 0, some 0⟩
    0 0 200 ⟨304, [("ETag", "xyz")], "", ""⟩ (by decide) (by decide) rfl (by decide) rfl
    (by decide) (by decide) (by decide) rfl (by decide) (by decide) rfl rfl (by decide) rfl rfl

/-- Witness instantiating `C9_unparseable_next_refresh_no_hit` at the
concrete environment with an unparseable refresh timestamp. -/
theorem C9_unparseable_next_refresh_no_hit_witness :
    ∃ out, mobile badDateEnv = Except.ok out
      ∧ ciGet out.resp.headers "X-WikiPro-Cache" ≠ some "HIT"
      ∧ (truthy badDateEntry.body = true →
          out.sent = some (conditionalHeaders
            (upstreamHeaders badDateEnv.acceptHeader badDateEnv.acceptLanguage)
            badDateEntry)) :=
  C9_unparseable_next_refresh_no_hit badDateEnv badDateEntry (by decide) (by decide) rfl
    (by decide) rfl (by decide)

/-- Witness instantiating `C10_empty_body_handled_as_miss` at the concrete
environment whose entry has no stored body. -/
theorem C10_empty_body_handled_as_miss_witness :
    ∃ out, mobile emptyBodyEnv = Except.ok out
      ∧ out.sent = some (upstreamHeaders emptyBodyEnv.acceptHeader emptyBodyEnv.acceptLanguage)
      ∧ ciGet (upstreamHeaders emptyBodyEnv.acceptHeader emptyBodyEnv.acceptLanguage)
          "If-None-Match" = none
      ∧ ciGet (upstreamHeaders emptyBodyEnv.acceptHeader emptyBodyEnv.acceptLanguage)
          "If-Modified-Since" = none
      ∧ (∀ msg, emptyBodyEnv.fetch
            (upstreamHeaders emptyBodyEnv.acceptHeader emptyBodyEnv.acceptLanguage)
            = .error msg →
          out.resp.status = 502 ∧ ciGet out.resp.headers "X-WikiPro-Cache" = none) :=
  C10_empty_body_handled_as_miss emptyBodyEnv emptyBodyEntry (by decide) (by decide) rfl
    (by decide) rfl rfl

/-- Witness instantiating `C7_body_hash_invariant` on the 304-revalidation
environment, which performs an upsert. -/
theorem C7_body_hash_invariant_witness :
    ∃ out row, mobile rv304Env = Except.ok out ∧ out.upsert = some row
      ∧ row.body_sha256 = sha256_hex row.body := by
  have h2 : (mobile rv304Env).toOption.map (fun o => o.upsert.isSome) = some true := by
    decide
  cases hm : mobile rv304Env with
  | error u => rw [hm] at h2; simp [Except.toOption] at h2
  | ok out =>
    rw [hm] at h2
    simp only [Except.toOption, Option.map_some'] at h2
    cases hu : out.upsert with
    | none => simp [hu] at h2
    | some row =>
      exact ⟨out, row, rfl, hu, C7_body_hash_invariant rv304Env out row
        (fun e he hbs => by
          have h3 : staleEntry = e := Option.some.inj he
          subst h3
          rfl) hm hu⟩

end WikiPro
